import Mathlib

/-!
# A verification model of dragonfly's `DenseSet` (core/dense_set.cc)

This file gives a shallow embedding of the `DenseSet` container: an
open-addressed, chained hash set with bounded (±1) displacement and lazy TTL
expiration.  Stored objects are modelled as natural numbers; the environment
callbacks (`hash`, `equal`, `alloc_size`, `expire_time`) are parameters.

The slot word `DensePtr` packs, in the C++ source, a tagged pointer together
with three flag bits (`has_ttl`, `displaced`, `displace_dir`).  Here it is an
inductive tagged union with explicit flag fields; a `DenseLinkKey` (a link
node: payload + next word) is flattened into the `link` constructor.
Counters that are C++ `uint32_t` are modelled as `Int` (their values never
leave the small range in the runs we evaluate, and every operation changes
them by the same amounts as the source, so the `Int` model tracks the C++
values exactly modulo 2^32).  The 64-bit hash is reduced by an explicit
`% 2^64`.
-/

set_option maxHeartbeats 1000000
set_option linter.unusedVariables false

namespace DenseSetModel

/-- An object pointer, opaque to the set. -/
abbrev Obj := Nat

/-- The slot word.  Modelled from the spec: the representation contract of
§4.1 (the C++ header `core/dense_set.h` carrying the bit-packing is not part
of the sources).  A slot is empty, an inline object, or a link head; three
flags travel with every non-empty word: `ttl`, `displaced`, and the
displacement direction `dir ∈ {−1,+1}` (meaningful only when `displaced`). -/
inductive DensePtr : Type where
  | empty : DensePtr
  | obj (o : Obj) (ttl : Bool) (displaced : Bool) (dir : Int) : DensePtr
  | link (payload : Obj) (next : DensePtr) (ttl : Bool) (displaced : Bool) (dir : Int) : DensePtr
deriving Repr, DecidableEq

namespace DensePtr

/-- `IsEmpty`. -/
def isEmpty : DensePtr → Bool
  | .empty => true
  | _ => false

/-- `IsLink`: the word is a link head. -/
def isLink : DensePtr → Bool
  | .link .. => true
  | _ => false

/-- `IsObject`: the link bit is clear (in the C++ encoding an empty word is
object-typed as well; all uses are guarded by an emptiness check). -/
def isObject : DensePtr → Bool
  | .link .. => false
  | _ => true

/-- `HasTtl`: the ttl flag bit (an empty word has all bits clear). -/
def hasTtl : DensePtr → Bool
  | .obj _ t _ _ => t
  | .link _ _ t _ _ => t
  | .empty => false

/-- `IsDisplaced`. -/
def isDisplaced : DensePtr → Bool
  | .obj _ _ d _ => d
  | .link _ _ _ d _ => d
  | .empty => false

/-- `GetDisplacedDirection`: the stored direction when displaced, else 0. -/
def getDisplacedDirection : DensePtr → Int
  | .obj _ _ d dir => if d then dir else 0
  | .link _ _ _ d dir => if d then dir else 0
  | .empty => 0

/-- `GetObject` / `Raw`: the object held by the word (a link head yields the
link's payload).  Junk (0) on an empty word; never used on one. -/
def getObject : DensePtr → Obj
  | .obj o _ _ _ => o
  | .link p _ _ _ _ => p
  | .empty => 0

/-- The content of the link's `next` word (`*Next()`); `none` for non-links. -/
def nextWord : DensePtr → Option DensePtr
  | .link _ n _ _ _ => some n
  | _ => none

/-- Modelled from the spec: `set_object(p)` — "become inline object, clear
flags" (§4.1). -/
def setObject (o : Obj) (_ : DensePtr) : DensePtr :=
  .obj o false false 0

/-- Modelled from the spec: `set_ttl`. -/
def setTtl (b : Bool) : DensePtr → DensePtr
  | .obj o _ d dir => .obj o b d dir
  | .link p n _ d dir => .link p n b d dir
  | .empty => .empty

/-- Modelled from the spec: `set_displaced(dir)`. -/
def setDisplaced (dir : Int) : DensePtr → DensePtr
  | .obj o t _ _ => .obj o t true dir
  | .link p n t _ _ => .link p n t true dir
  | .empty => .empty

/-- Modelled from the spec: `clear_displaced`. -/
def clearDisplaced : DensePtr → DensePtr
  | .obj o t _ _ => .obj o t false 0
  | .link p n t _ _ => .link p n t false 0
  | .empty => .empty

/-- Modelled from the spec: `set_link(link_node*)` — become a link head whose
node holds `payload` and `next`; flag bits start clear (the callers set the
ttl bit afterwards when needed). -/
def setLink (payload : Obj) (next : DensePtr) (_ : DensePtr) : DensePtr :=
  .link payload next false false 0

/-- Modelled from the spec: `reset()` — become empty, all flags cleared. -/
def reset (_ : DensePtr) : DensePtr := .empty

/-- Modelled from the spec: `DensePtr::From(link)` — "construct a slot word
that owns the link's payload as inline object" (§4.1, used when promoting a
link's content into the head during chain collapse). -/
def fromLink : DensePtr → DensePtr
  | .link p _ _ _ _ => .obj p false false 0
  | w => w

/-- Replace the link's `next` word (`*ptr.Next() = ...`), keeping the word's
own payload and flags. -/
def withNext : DensePtr → DensePtr → DensePtr
  | .link p _ t d dir, c => .link p c t d dir
  | w, _ => w

/-- The objects stored in the chain rooted at this word, front to back. -/
def chainObjs : DensePtr → List Obj
  | .empty => []
  | .obj o _ _ _ => [o]
  | .link p n _ _ _ => p :: n.chainObjs

/-- Number of objects in the chain. -/
def chainLen (c : DensePtr) : Nat := c.chainObjs.length

/-- Number of link nodes allocated in the chain. -/
def chainLinks : DensePtr → Nat
  | .link _ n _ _ _ => n.chainLinks + 1
  | _ => 0

end DensePtr

/-- The environment callbacks the embedder provides (spec §6).  `hash` and
`equal` take the opaque `cookie`; `expireTime` is in the set's time unit. -/
structure Env where
  hash : Obj → Nat → Nat
  equal : Obj → Obj → Nat → Bool
  allocSize : Obj → Nat
  expireTime : Obj → Nat

/-- `BucketId(hash)`: the high `capacity_log` bits of the 64-bit hash
(spec §4.2).  Modelled from the spec: the C++ helper lives in the header. -/
def bucketIdOfHash (capacityLog : Nat) (hc : Nat) : Nat :=
  (hc % 2 ^ 64) >>> (64 - capacityLog)

/-- `BucketId(ptr, cookie)`. -/
def bucketIdOf (env : Env) (capacityLog : Nat) (o : Obj) (cookie : Nat) : Nat :=
  bucketIdOfHash capacityLog (env.hash o cookie)

/-- The `DenseSet` state (spec §3): the bucket vector, `capacity_log_`, the
three counters, the malloc-used gauge, and the caller-set time. -/
structure DenseSet where
  entries : List DensePtr
  capacityLog : Nat
  size : Int
  numUsedBuckets : Int
  numChainEntries : Int
  objMallocUsed : Int
  timeNow : Nat
deriving Repr, DecidableEq

namespace DenseSet

/-- A fresh, empty set (the constructor). -/
def init (timeNow : Nat) : DenseSet :=
  { entries := [], capacityLog := 0, size := 0, numUsedBuckets := 0,
    numChainEntries := 0, objMallocUsed := 0, timeNow := timeNow }

/-- Read bucket `b`'s head word. -/
def bucket (s : DenseSet) (b : Nat) : DensePtr := s.entries.getD b .empty

/-- Write bucket `b`'s head word. -/
def setBucket (s : DenseSet) (b : Nat) (c : DensePtr) : DenseSet :=
  { s with entries := s.entries.set b c }

end DenseSet

/-! ## Chain primitives (PushFront / PopPtrFront, dense_set.cc:81-157) -/

/-- `PushFront(it, data, has_ttl)` (dense_set.cc:81): install `data` at the
front of the chain; inline when the slot is empty, else via a fresh link. -/
def pushFrontData (c : DensePtr) (data : Obj) (hasTtl : Bool) : DensePtr :=
  let c' := if c.isEmpty then DensePtr.setObject data c else DensePtr.setLink data c c
  if hasTtl then c'.setTtl true else c'

/-- `PushFront(it, DensePtr)` (dense_set.cc:95): push an existing slot word to
the front of the chain, reusing its link node when it has one. -/
def pushFrontPtr (c : DensePtr) (p : DensePtr) : DensePtr :=
  if c.isEmpty then
    let base := DensePtr.setObject p.getObject c
    if p.hasTtl then base.setTtl true else base
  else if p.isLink then
    p.withNext c
  else
    let base := DensePtr.setLink p.getObject c c
    if p.hasTtl then base.setTtl true else base

/-- `PopPtrFront` (dense_set.cc:122): unlink the first record, returning the
front word and the remaining chain. -/
def popPtrFront (c : DensePtr) : DensePtr × DensePtr :=
  match c with
  | .empty => (.empty, .empty)
  | .obj o t d dir => (.obj o t d dir, .empty)
  | .link p n t d dir => (.link p n t d dir, n)

/-- `PopDataFront` (dense_set.cc:148): pop the front record and return its
object (the freed link node is dropped). -/
def popDataFront (c : DensePtr) : Obj × DensePtr :=
  let (front, rest) := popPtrFront c
  (front.getObject, rest)

/-! ## TTL expiry (ExpireIfNeededInternal, dense_set.cc:715-732)

`expireLoop` mirrors the `do { ... Delete(prev, node); } while (node->HasTtl())`
loop acting on the chain suffix rooted at `node`.  It returns the rewritten
suffix, the deleted objects (front first), the number of deletions that took
the `Delete` link-head branch (each `--num_chain_entries_`), and whether the
final deletion took the inline-object branch (whose counter bookkeeping
depends on `prev`: head slot → `--num_used_buckets_`, chain position →
`--num_chain_entries_` plus promotion of the preceding link). -/

structure ExpireRes where
  node : DensePtr
  deleted : List Obj
  linkDels : Nat
  objDel : Bool
deriving Repr, DecidableEq

/-- The deletion loop of `ExpireIfNeededInternal`, to be entered only when the
node has the ttl bit (the wrapper checks it). -/
def expireLoop (env : Env) (timeNow : Nat) : DensePtr → ExpireRes
  | .empty => ⟨.empty, [], 0, false⟩
  | .obj o t d dir =>
      if env.expireTime o ≤ timeNow then
        -- Delete: inline-object branch; the slot resets, `HasTtl` of the
        -- empty word is false, so the loop exits.
        ⟨.empty, [o], 0, true⟩
      else
        ⟨.obj o t d dir, [], 0, false⟩
  | .link p n t d dir =>
      if env.expireTime p ≤ timeNow then
        -- Delete: link-head branch; `*node = link->next`, then the loop
        -- continues while the new front has the ttl bit.
        if n.hasTtl then
          let r := expireLoop env timeNow n
          ⟨r.node, p :: r.deleted, r.linkDels + 1, r.objDel⟩
        else
          ⟨n, [p], 1, false⟩
      else
        ⟨.link p n t d dir, [], 0, false⟩

/-- `ExpireIfNeeded(prev, node)` on a whole word: the header wrapper runs the
internal loop only when the ttl bit is set.  Modelled from the spec (§4.8).
Returns the result record; `deleted ≠ []` is the C++ boolean result. -/
def expireIfNeeded (env : Env) (timeNow : Nat) (c : DensePtr) : ExpireRes :=
  if c.hasTtl then expireLoop env timeNow c else ⟨c, [], 0, false⟩

/-- Counter/size bookkeeping for an expiry run at a bucket head
(`prev = nullptr`): the inline-object deletion decrements `num_used_buckets_`,
every link-head deletion decrements `num_chain_entries_`, and each deletion
decrements `size_` and subtracts the object's alloc size. -/
def applyExpireHead (env : Env) (s : DenseSet) (b : Nat) : DenseSet :=
  let r := expireIfNeeded env s.timeNow (s.bucket b)
  { s with
    entries := s.entries.set b r.node,
    size := s.size - r.deleted.length,
    numUsedBuckets := s.numUsedBuckets - (if r.objDel then 1 else 0),
    numChainEntries := s.numChainEntries - r.linkDels,
    objMallocUsed := s.objMallocUsed - (r.deleted.map env.allocSize).sum }

/-! ## Grow (dense_set.cc:255-337)

`Grow` iterates the old buckets from highest index down to 0 and, for each,
walks the chain with `prev`/`curr` cursors: every visited position is first
swept for expiry, entries whose (new) bucket id equals the current index are
kept (with their displaced flag cleared), and the others are detached and
pushed to the front of their correct bucket (which is then
`ClearDisplaced`ed).  When an inline tail is detached or expired below a kept
link, the link is promoted via `DensePtr::From` and freed.

`growWalk` is the walk for one bucket position: `prevIsLink` records whether
the position is a link's `next` (mid-chain) or the bucket head, which decides
the bookkeeping of an inline-object deletion and whether a promotion signal
(`out = none`) is sent to the caller. -/

structure GrowRes where
  /-- The word left at this position; `none` signals to the owning link that
  it was promoted (`*prev = DensePtr::From(plink)`). -/
  out : Option DensePtr
  /-- Detached words, front to back, paired with their destination bucket. -/
  moves : List (Nat × DensePtr)
  deleted : List Obj
  usedD : Int
  chainsD : Int
deriving Repr, DecidableEq

def growWalkF (env : Env) (tn : Nat) (clog : Nat) (i : Nat) :
    Nat → Bool → DensePtr → GrowRes
  | 0, _, c => ⟨some c, [], [], 0, 0⟩
  | fuel + 1, prevIsLink, c =>
  let r := expireIfNeeded env tn c
  let dUsed : Int := if r.objDel && !prevIsLink then -1 else 0
  let dChains : Int := -(r.linkDels : Int) + (if r.objDel && prevIsLink then -1 else 0)
  if r.objDel && prevIsLink then
    -- the expiry promoted the owning link (`prev` stopped being a link)
    ⟨none, [], r.deleted, dUsed, dChains⟩
  else
    match r.node with
    | .empty => ⟨some .empty, [], r.deleted, dUsed, dChains⟩
    | .obj o t d dir =>
        let bid := bucketIdOf env clog o 0
        if bid = i then
          ⟨some ((DensePtr.obj o t d dir).clearDisplaced), [], r.deleted, dUsed, dChains⟩
        else if prevIsLink then
          -- detach the inline tail and promote the owning link
          ⟨none, [(bid, DensePtr.obj o t d dir)], r.deleted, dUsed, dChains⟩
        else
          ⟨some .empty, [(bid, DensePtr.obj o t d dir)], r.deleted, dUsed, dChains⟩
    | .link p n t d dir =>
        let bid := bucketIdOf env clog p 0
        if bid = i then
          -- keep: clear displaced, then advance (`prev = curr; curr = curr->Next()`)
          let sub := growWalkF env tn clog i fuel true n
          let word :=
            match sub.out with
            | none => (DensePtr.link p n t d dir).clearDisplaced.fromLink
            | some n' => DensePtr.link p n' t false 0
          ⟨some word, sub.moves, r.deleted ++ sub.deleted, dUsed + sub.usedD,
            dChains + sub.chainsD⟩
        else
          -- `*curr = *dptr.Next()`, move the link node, re-run at this position
          let sub := growWalkF env tn clog i fuel prevIsLink n
          ⟨sub.out, (bid, DensePtr.link p n t d dir) :: sub.moves,
            r.deleted ++ sub.deleted, dUsed + sub.usedD, dChains + sub.chainsD⟩

/-- The grow walk at a bucket head.  The fuel `chainLen + 1` always suffices
(each recursive step strictly shortens the chain). -/
def growWalk (env : Env) (tn : Nat) (clog : Nat) (i : Nat) (prevIsLink : Bool)
    (c : DensePtr) : GrowRes :=
  growWalkF env tn clog i (c.chainLen + 1) prevIsLink c

/-- Process one bucket of `Grow`: run the walk at the head, write back the
resulting chain, apply the counter deltas of the expiry deletions, then apply
the relocations in order (`PushFront(dest, dptr); dest->ClearDisplaced()`). -/
def growStep (env : Env) (s : DenseSet) (i : Nat) : DenseSet :=
  let r := growWalk env s.timeNow s.capacityLog i false (s.bucket i)
  let s1 : DenseSet :=
    { s with
      entries := s.entries.set i (r.out.getD .empty),
      size := s.size - r.deleted.length,
      numUsedBuckets := s.numUsedBuckets + r.usedD,
      numChainEntries := s.numChainEntries + r.chainsD,
      objMallocUsed := s.objMallocUsed - (r.deleted.map env.allocSize).sum }
  r.moves.foldl
    (fun t m => t.setBucket m.1 ((pushFrontPtr (t.bucket m.1) m.2).clearDisplaced)) s1

/-- `Grow(prev_size)` (dense_set.cc:255): rehash buckets `prev_size-1` down
to `0`. -/
def grow (env : Env) (s : DenseSet) (prevSize : Nat) : DenseSet :=
  (List.range prevSize).reverse.foldl (fun t i => growStep env t i) s

/-- `absl::bit_ceil`: the smallest power of two that is at least `n`
(computed by doubling; the fuel `n` suffices since doubling from 1 reaches
`n` within `n` steps). -/
def bitCeilF (n : Nat) : Nat → Nat → Nat
  | 0, acc => acc
  | fuel + 1, acc => if n ≤ acc then acc else bitCeilF n fuel (acc * 2)

def bitCeil (n : Nat) : Nat := bitCeilF n n 1

/-- `absl::bit_width(n) - 1` on a power of two, i.e. `log2` (computed by
halving with structural fuel). -/
def pLog2F : Nat → Nat → Nat
  | 0, _ => 0
  | fuel + 1, n => if 2 ≤ n then pLog2F fuel (n / 2) + 1 else 0

def pLog2 (n : Nat) : Nat := pLog2F n n

/-- `Reserve(sz)` (dense_set.cc:243). -/
def reserveOp (env : Env) (s : DenseSet) (sz : Nat) : DenseSet :=
  let sz' := bitCeil (max sz 4)
  if sz' > s.entries.length then
    let prev := s.entries.length
    let s1 : DenseSet :=
      { s with entries := s.entries ++ List.replicate (sz' - prev) .empty,
               capacityLog := pLog2 sz' }
    grow env s1 prev
  else s

/-! ## Insert (AddUnique / AddOrFindDense, dense_set.cc:339-486) -/

/-- `FindEmptyAround(bid)` (dense_set.cc:215): sweep-expire and test `bid`,
then `bid+1`, then `bid-1`, returning the first empty one. -/
def findEmptyAround (env : Env) (s : DenseSet) (bid : Nat) : DenseSet × Option Nat :=
  let s0 := applyExpireHead env s bid
  if (s0.bucket bid).isEmpty then (s0, some bid)
  else
    let tryLeft := fun (t : DenseSet) =>
      if bid > 0 then
        let t' := applyExpireHead env t (bid - 1)
        if (t'.bucket (bid - 1)).isEmpty then (t', some (bid - 1)) else (t', none)
      else (t, none)
    if bid + 1 < s0.entries.length then
      let s1 := applyExpireHead env s0 (bid + 1)
      if (s1.bucket (bid + 1)).isEmpty then (s1, some (bid + 1)) else tryLeft s1
    else tryLeft s0

/-- The flat placement of `AddUnique` (dense_set.cc:386-395): install the
object at the empty slot found around its home bucket, marking displacement
when the slot is a neighbor. -/
def flatPlace (env : Env) (s : DenseSet) (idx bid : Nat) (o : Obj) (hasTtl : Bool) :
    DenseSet :=
  let c := pushFrontData (s.bucket idx) o hasTtl
  let c := if idx ≠ bid then c.setDisplaced ((idx : Int) - (bid : Int)) else c
  { s with
    entries := s.entries.set idx c,
    size := s.size + 1,
    numUsedBuckets := s.numUsedBuckets + 1,
    objMallocUsed := s.objMallocUsed + env.allocSize o }

/-- One doubling step inside `AddUnique` (dense_set.cc:401-406). -/
def addGrowStep (env : Env) (s : DenseSet) : DenseSet :=
  let prev := s.entries.length
  let s1 : DenseSet :=
    { s with entries := s.entries ++ List.replicate prev .empty,
             capacityLog := s.capacityLog + 1 }
  grow env s1 prev

/-- The displacement cascade of `AddUnique` (dense_set.cc:455-470), with
explicit fuel.  Each iteration pops the displaced head of the target bucket,
pushes the held word there, and retargets the victim's true home
(`bucket_id -= displace_dir`).  Returns the final state, held word, target
bucket and the number of iterations performed. -/
def cascade (env : Env) (fuel : Nat) (s : DenseSet) (toInsert : DensePtr) (bid : Nat) :
    DenseSet × DensePtr × Nat × Nat :=
  match fuel with
  | 0 => (s, toInsert, bid, 0)
  | fuel + 1 =>
      let head := s.bucket bid
      if !head.isEmpty && head.isDisplaced then
        let (unlinked, rest) := popPtrFront head
        let s1 := s.setBucket bid rest
        let s2 := s1.setBucket bid (pushFrontPtr (s1.bucket bid) toInsert)
        let bid' := ((bid : Int) - unlinked.getDisplacedDirection).toNat
        let (s3, ti, b, n) := cascade env fuel s2 unlinked bid'
        (s3, ti, b, n + 1)
      else (s, toInsert, bid, 0)

/-- dense_set.cc:421-485: the displaced-node cascade, followed by the final
`PushFront` (with `++num_chain_entries_` when the target chain is non-empty)
and `++size_`.  The fuel `entries.length + 1` is never exhausted on an
invariant-satisfying state (`cascade_fuel_sufficient`). -/
def cascadeInsert (env : Env) (s : DenseSet) (o : Obj) (hasTtl : Bool) (bid : Nat) :
    DenseSet :=
  let toInsert : DensePtr := if hasTtl then (DensePtr.obj o false false 0).setTtl true
                             else DensePtr.obj o false false 0
  let (s', ti, bid', _) := cascade env (s.entries.length + 1) s toInsert bid
  let s'' := if !(s'.bucket bid').isEmpty then
      { s' with numChainEntries := s'.numChainEntries + 1 } else s'
  { s'' with
    entries := s''.entries.set bid' (pushFrontPtr (s''.bucket bid') ti),
    objMallocUsed := s''.objMallocUsed + env.allocSize o,
    size := s''.size + 1 }

/-- `AddUnique(obj, has_ttl, hashcode)` (dense_set.cc:368-486).  The two-round
flat/grow loop (`for j < 2`) is unrolled: a flat attempt, a growth step when
the flat attempt failed and `size ≥ entries.size()`, a second flat attempt,
a (practically unreachable) second growth step, then the cascade. -/
def addUnique (env : Env) (s : DenseSet) (o : Obj) (hasTtl : Bool) (hashcode : Nat) :
    DenseSet :=
  let s := if s.entries.isEmpty then
    { s with capacityLog := 2, entries := List.replicate 4 .empty } else s
  let bid := bucketIdOfHash s.capacityLog hashcode
  -- j = 0
  let (s0, r0) := findEmptyAround env s bid
  match r0 with
  | some idx => flatPlace env s0 idx bid o hasTtl
  | none =>
    if s0.size < (s0.entries.length : Int) then cascadeInsert env s0 o hasTtl bid
    else
      let t := addGrowStep env s0
      let bid1 := bucketIdOfHash t.capacityLog hashcode
      -- j = 1
      let (s2, r2) := findEmptyAround env t bid1
      match r2 with
      | some idx => flatPlace env s2 idx bid1 o hasTtl
      | none =>
        if s2.size < (s2.entries.length : Int) then cascadeInsert env s2 o hasTtl bid1
        else
          let t2 := addGrowStep env s2
          cascadeInsert env t2 o hasTtl (bucketIdOfHash t2.capacityLog hashcode)

/-! ## Lookup (Find2, dense_set.cc:488-533) and delete (Delete, dense_set.cc:535-568)

A found entry is addressed by its bucket and its depth in the chain: depth 0
is the bucket head word, depth `k ≥ 1` is the word behind `k` links. -/

/-- `Equal(dptr, ptr, cookie)` (dense_set.cc:181): false on an empty word. -/
def wordEqual (env : Env) (c : DensePtr) (o : Obj) (cookie : Nat) : Bool :=
  !c.isEmpty && env.equal c.getObject o cookie

structure WalkRes where
  /-- Word left at this position (`none`: the owning link was promoted). -/
  out : Option DensePtr
  deleted : List Obj
  chainsD : Int
  /-- Depth (from this position) of the matching word, if found. -/
  found : Option Nat
deriving Repr, DecidableEq

/-- The chain walk of `Find2` (dense_set.cc:519-529): at each position, sweep
expiry (`prev` is the link above, so an inline-object deletion promotes it),
test equality, advance. -/
def walkFindF (env : Env) (tn : Nat) (o : Obj) (cookie : Nat) :
    Nat → DensePtr → WalkRes
  | 0, c => ⟨some c, [], 0, none⟩
  | fuel + 1, c =>
  let r := expireIfNeeded env tn c
  if r.objDel then
    -- the tail was expired and the owning link promoted; `Equal` on the reset
    -- word is false and the loop exits
    ⟨none, r.deleted, -(r.linkDels : Int) - 1, none⟩
  else if wordEqual env r.node o cookie then
    ⟨some r.node, r.deleted, -(r.linkDels : Int), some 0⟩
  else
    match r.node with
    | .link p n t d dir =>
        let sub := walkFindF env tn o cookie fuel n
        let word :=
          match sub.out with
          | none => DensePtr.obj p false false 0
          | some n' => DensePtr.link p n' t d dir
        ⟨some word, r.deleted ++ sub.deleted, -(r.linkDels : Int) + sub.chainsD,
          sub.found.map (· + 1)⟩
    | w => ⟨some w, r.deleted, -(r.linkDels : Int), none⟩

/-- The `Find2` chain walk entered with always-sufficient fuel. -/
def walkFind (env : Env) (tn : Nat) (o : Obj) (cookie : Nat) (c : DensePtr) : WalkRes :=
  walkFindF env tn o cookie (c.chainLen + 1) c

/-- Apply an expiry-and-search run to bucket `bid`'s chain tail (depth ≥ 1),
adjusting the counters for deletions met on the way. -/
def applyWalkFind (env : Env) (s : DenseSet) (bid : Nat) (o : Obj) (cookie : Nat) :
    DenseSet × Option Nat :=
  match s.bucket bid with
  | .link p n t d dir =>
      let r := walkFind env s.timeNow o cookie n
      let head :=
        match r.out with
        | none => DensePtr.obj p false false 0
        | some n' => DensePtr.link p n' t d dir
      ({ s with
          entries := s.entries.set bid head,
          size := s.size - r.deleted.length,
          numChainEntries := s.numChainEntries + r.chainsD,
          objMallocUsed := s.objMallocUsed - (r.deleted.map env.allocSize).sum },
       r.found.map (· + 1))
  | _ => (s, none)

/-- `Find2(ptr, bid, cookie)` (dense_set.cc:488): home head, left neighbor,
right neighbor (each sweep-expired first), then the chain walk from the home
bucket. -/
def find2 (env : Env) (s : DenseSet) (o : Obj) (bid : Nat) (cookie : Nat) :
    DenseSet × Option (Nat × Nat) :=
  let s0 := applyExpireHead env s bid
  if wordEqual env (s0.bucket bid) o cookie then (s0, some (bid, 0))
  else
    let stepRight := fun (t : DenseSet) =>
      if bid + 1 < t.entries.length then
        let t' := applyExpireHead env t (bid + 1)
        if wordEqual env (t'.bucket (bid + 1)) o cookie then (t', some (bid + 1, 0))
        else
          let (t'', d) := applyWalkFind env t' bid o cookie
          (t'', d.map ((bid, ·)))
      else
        let (t'', d) := applyWalkFind env t bid o cookie
        (t'', d.map ((bid, ·)))
    if bid > 0 then
      let s1 := applyExpireHead env s0 (bid - 1)
      if wordEqual env (s1.bucket (bid - 1)) o cookie then (s1, some (bid - 1, 0))
      else stepRight s1
    else stepRight s0

/-- Structural part of `Delete(prev, ptr)` (dense_set.cc:535) on a chain:
remove the word at `depth`, returning the new chain, the removed object, and
the `used`/`chains` counter deltas. -/
def chainDelete : DensePtr → Nat → DensePtr × Obj × Int × Int
  | .obj o _ _ _, 0 => (.empty, o, -1, 0)          -- inline head, prev = null
  | .link p n _ _ _, 0 => (n, p, 0, -1)            -- link head: *ptr = link->next
  | .link p n t d dir, k + 1 =>
      match n, k with
      | .obj q _ _ _, 0 =>
          -- inline tail under a link: reclaim the link, promote its payload
          ((DensePtr.link p n t d dir).fromLink, q, 0, -1)
      | .link q m _ _ _, 0 =>
          -- link at depth ≥ 1: *ptr = link->next
          (DensePtr.link p m t d dir, q, 0, -1)
      | _, _ =>
          let (n', q, du, dc) := chainDelete n k
          (DensePtr.link p n' t d dir, q, du, dc)
  | c, _ => (c, 0, 0, 0)

/-- `Delete(prev, ptr)` applied to the entry at `(bid, depth)`. -/
def deleteAt (env : Env) (s : DenseSet) (bid depth : Nat) : DenseSet :=
  let (c', o, du, dc) := chainDelete (s.bucket bid) depth
  { s with
    entries := s.entries.set bid c',
    size := s.size - 1,
    numUsedBuckets := s.numUsedBuckets + du,
    numChainEntries := s.numChainEntries + dc,
    objMallocUsed := s.objMallocUsed - env.allocSize o }

/-- `Erase` — modelled from the spec (§4.4–§4.5, §6): the public erase locates
the entry via `Find2` at the object's home bucket and unlinks it via
`Delete`; absent objects report `false`. -/
def eraseObj (env : Env) (s : DenseSet) (o : Obj) (cookie : Nat) : DenseSet × Bool :=
  if s.entries.isEmpty then (s, false)
  else
    let bid := bucketIdOf env s.capacityLog o cookie
    let (s', r) := find2 env s o bid cookie
    match r with
    | none => (s', false)
    | some (b, d) => (deleteAt env s' b d, true)

/-- `AddOrFindDense(ptr, has_ttl)` (dense_set.cc:339): first-insert fast path,
then find-or-add-unique.  Returns the located existing entry, if any. -/
def addOrFindDense (env : Env) (s : DenseSet) (o : Obj) (hasTtl : Bool) :
    DenseSet × Option (Nat × Nat) :=
  let hc := env.hash o 0
  if s.entries.isEmpty then
    let s1 : DenseSet := { s with capacityLog := 2, entries := List.replicate 4 .empty }
    let bid := bucketIdOfHash 2 hc
    let s2 : DenseSet :=
      { s1 with
        entries := s1.entries.set bid (pushFrontData (s1.bucket bid) o hasTtl),
        objMallocUsed := s1.objMallocUsed + env.allocSize o,
        size := s1.size + 1,
        numUsedBuckets := s1.numUsedBuckets + 1 }
    (s2, none)
  else
    let bid := bucketIdOfHash s.capacityLog hc
    let (s', r) := find2 env s o bid 0
    match r with
    | some loc => (s', some loc)
    | none => (addUnique env s' o hasTtl hc, none)

/-- Replace the object held by the word at `(bid, depth)`
(`AddOrReplaceObj`, dense_set.cc:602-619): on a link head the write goes to
the link's payload word (the head word and its flags are untouched); on an
inline word `SetObject` resets the flags and `SetTtl(has_ttl)` follows.
Returns the replaced object. -/
def replaceAtWord (o : Obj) (hasTtl : Bool) : DensePtr → DensePtr × Obj
  | .link p n t d dir => (.link o n t d dir, p)
  | .obj p _ _ _ => (.obj o hasTtl false 0, p)
  | .empty => (.empty, 0)

def replaceAtDepth (o : Obj) (hasTtl : Bool) : DensePtr → Nat → DensePtr × Obj
  | c, 0 => replaceAtWord o hasTtl c
  | .link p n t d dir, k + 1 =>
      let (n', q) := replaceAtDepth o hasTtl n k
      (.link p n' t d dir, q)
  | c, _ + 1 => (c, 0)

/-- `AddOrReplaceObj(obj, has_ttl)` (dense_set.cc:602). -/
def addOrReplaceObj (env : Env) (s : DenseSet) (o : Obj) (hasTtl : Bool) :
    DenseSet × Option Obj :=
  let (s', r) := addOrFindDense env s o hasTtl
  match r with
  | none => (s', none)
  | some (bid, depth) =>
      let (c', old) := replaceAtDepth o hasTtl (s'.bucket bid) depth
      ({ s' with
          entries := s'.entries.set bid c',
          objMallocUsed := s'.objMallocUsed - env.allocSize old + env.allocSize o },
       some old)

/-! ## Pop (PopInternal, dense_set.cc:570-600) -/

/-- The first-non-empty-chain search of `PopInternal`: skip empty buckets,
sweep-expire the first non-empty one, and continue if it became empty. -/
def popScanF (env : Env) : Nat → DenseSet → Nat → DenseSet × Option Nat
  | 0, s, _ => (s, none)
  | fuel + 1, s, i =>
    if i < s.entries.length then
      if (s.bucket i).isEmpty then popScanF env fuel s (i + 1)
      else
        let s' := applyExpireHead env s i
        if (s'.bucket i).isEmpty then popScanF env fuel s' (i + 1)
        else (s', some i)
    else (s, none)

/-- The bucket search entered with always-sufficient fuel. -/
def popScan (env : Env) (s : DenseSet) (i : Nat) : DenseSet × Option Nat :=
  popScanF env (s.entries.length + 1) s i

/-- `PopInternal` (dense_set.cc:570). -/
def popInternal (env : Env) (s : DenseSet) : DenseSet × Option Obj :=
  let (s', r) := popScan env s 0
  match r with
  | none => (s', none)
  | some i =>
      let head := s'.bucket i
      let s1 := if head.isLink then
          { s' with numChainEntries := s'.numChainEntries - 1 }
        else
          { s' with numUsedBuckets := s'.numUsedBuckets - 1 }
      let (o, rest) := popDataFront head
      ({ s1 with
          entries := s1.entries.set i rest,
          objMallocUsed := s1.objMallocUsed - env.allocSize head.getObject,
          size := s1.size - 1 },
       some o)

/-! ## Clear (ClearInternal, dense_set.cc:159-179) -/

/-- The per-bucket loop of `ClearInternal`
(`while (!it->IsEmpty()) { ... PopDataFront(it) ... ObjDelete(obj, ...) }`):
pop the front record until the chain is empty, collecting the objects handed
to `ObjDelete` in order (`PopDataFront` of an inline object leaves the slot
empty; of a link head, its payload, leaving the rest of the chain). -/
def clearBucketLoop : DensePtr → List Obj
  | .empty => []
  | .obj o _ _ _ => [o]
  | .link p n _ _ _ => p :: clearBucketLoop n

/-- `ClearInternal`: pop every chain empty (handing each object to
`ObjDelete`), then clear the vector and zero `num_used_buckets_`,
`num_chain_entries_` and `size_`.  `capacity_log_` and `obj_malloc_used_`
are left as they were. -/
def clearInternal (s : DenseSet) : DenseSet × List Obj :=
  ({ s with entries := [], numUsedBuckets := 0, numChainEntries := 0, size := 0 },
   (s.entries.map clearBucketLoop).flatten)

/-! ## Scan (dense_set.cc:636-703) -/

/-- `NoItemBelongsBucket(bid)` (dense_set.cc:189): after sweeping, no entry is
homed at `bid` — the head is empty or displaced, the right neighbor is not
displaced into `bid`, and neither is the left neighbor. -/
def noItemBelongsBucket (env : Env) (s : DenseSet) (bid : Nat) : DenseSet × Bool :=
  let s0 := applyExpireHead env s bid
  if !(s0.bucket bid).isEmpty && !(s0.bucket bid).isDisplaced then (s0, false)
  else
    let checkLeft := fun (t : DenseSet) =>
      if bid > 0 then
        let t' := applyExpireHead env t (bid - 1)
        let lb := t'.bucket (bid - 1)
        if !lb.isEmpty && lb.isDisplaced && decide (lb.getDisplacedDirection = -1) then
          (t', false)
        else (t', true)
      else (t, true)
    if bid + 1 < s0.entries.length then
      let s1 := applyExpireHead env s0 (bid + 1)
      let rb := s1.bucket (bid + 1)
      if !rb.isEmpty && rb.isDisplaced && decide (rb.getDisplacedDirection = 1) then
        (s1, false)
      else checkLeft s1
    else checkLeft s0

/-- The skip loop of `Scan` (dense_set.cc:649-651). -/
def scanSkipF (env : Env) : Nat → DenseSet → Nat → DenseSet × Nat
  | 0, s, idx => (s, idx)
  | fuel + 1, s, idx =>
    if idx < s.entries.length then
      let r := noItemBelongsBucket env s idx
      if r.2 then scanSkipF env fuel r.1 (idx + 1) else (r.1, idx)
    else (s, idx)

/-- The skip loop entered with always-sufficient fuel. -/
def scanSkip (env : Env) (s : DenseSet) (idx : Nat) : DenseSet × Nat :=
  scanSkipF env (s.entries.length + 1) s idx

/-- The home-chain emission loop of `Scan` (dense_set.cc:662-673): emit the
object under the cursor, then sweep-expire the next word (a promotion of the
current link ends the chain), then advance. -/
def scanChainF (env : Env) (tn : Nat) :
    Nat → DensePtr → DensePtr × List Obj × List Obj × Int
  | 0, c => (c, [], [], 0)
  | fuel + 1, c =>
  match c with
  | .empty => (.empty, [], [], 0)
  | .obj o t d dir => (.obj o t d dir, [o], [], 0)
  | .link p n t d dir =>
      let r := expireIfNeeded env tn n
      if r.objDel then
        ((DensePtr.link p n t d dir).fromLink, [p], r.deleted, -(r.linkDels : Int) - 1)
      else
        let (n', emitted, deleted, dc) := scanChainF env tn fuel r.node
        (DensePtr.link p n' t d dir, p :: emitted, r.deleted ++ deleted,
          -(r.linkDels : Int) + dc)

/-- The home-chain emission loop entered with always-sufficient fuel. -/
def scanChain (env : Env) (tn : Nat) (c : DensePtr) : DensePtr × List Obj × List Obj × Int :=
  scanChainF env tn (c.chainLen + 1) c

/-- `Scan(cursor, cb)` (dense_set.cc:636): returns the updated state, the
emitted objects in order, and the next cursor (`0` ends the scan). -/
def scan (env : Env) (s : DenseSet) (cursor : Nat) : DenseSet × List Obj × Nat :=
  if s.capacityLog = 0 then (s, [], 0)
  else
    let idx0 := (cursor % 2 ^ 32) >>> (32 - s.capacityLog)
    let (s1, idx) := scanSkip env s idx0
    if idx = s1.entries.length then (s1, [], 0)
    else
      let head := s1.bucket idx
      let (s2, out1) :=
        if !head.isEmpty && !head.isDisplaced then
          let (c', emitted, deleted, dc) := scanChain env s1.timeNow head
          ({ s1 with
              entries := s1.entries.set idx c',
              size := s1.size - deleted.length,
              numChainEntries := s1.numChainEntries + dc,
              objMallocUsed := s1.objMallocUsed - (deleted.map env.allocSize).sum },
           emitted)
        else (s1, [])
      let (s3, out2) :=
        if idx > 0 then
          let t := applyExpireHead env s2 (idx - 1)
          let lb := t.bucket (idx - 1)
          if lb.isDisplaced && decide (lb.getDisplacedDirection = -1) then
            (t, [lb.getObject])
          else (t, [])
        else (s2, [])
      let idx' := idx + 1
      if idx' ≥ s3.entries.length then (s3, out1 ++ out2, 0)
      else
        let s4 := applyExpireHead env s3 idx'
        let rb := s4.bucket idx'
        let out3 := if rb.isDisplaced && decide (rb.getDisplacedDirection = 1) then
            [rb.getObject] else []
        (s4, out1 ++ out2 ++ out3, (idx' <<< (32 - s4.capacityLog)) % 2 ^ 32)

/-! ## Reachable states -/

/-- The states reachable from a fresh `DenseSet` by the public operations
(spec §6): add-or-find, add-or-replace, erase, pop, scan, reserve, clear and
set-time. -/
inductive Reachable (env : Env) : DenseSet → Prop where
  | init (t : Nat) : Reachable env (DenseSet.init t)
  | addOrFind (s : DenseSet) (o : Obj) (ttl : Bool) :
      Reachable env s → Reachable env (addOrFindDense env s o ttl).1
  | addOrReplace (s : DenseSet) (o : Obj) (ttl : Bool) :
      Reachable env s → Reachable env (addOrReplaceObj env s o ttl).1
  | erase (s : DenseSet) (o : Obj) (cookie : Nat) :
      Reachable env s → Reachable env (eraseObj env s o cookie).1
  | pop (s : DenseSet) :
      Reachable env s → Reachable env (popInternal env s).1
  | scanStep (s : DenseSet) (cursor : Nat) :
      Reachable env s → Reachable env (scan env s cursor).1
  | reserve (s : DenseSet) (n : Nat) :
      Reachable env s → Reachable env (reserveOp env s n)
  | clear (s : DenseSet) :
      Reachable env s → Reachable env (clearInternal s).1
  | setTime (s : DenseSet) (t : Nat) :
      Reachable env s → Reachable env { s with timeNow := t }



/-! ## Derived notions used by the theorems -/

/-- All objects stored in the set, bucket by bucket, front to back. -/
def objectsOf (s : DenseSet) : List Obj := (s.entries.map DensePtr.chainObjs).flatten

/-- The number of bucket indices whose head slot is non-empty. -/
def usedActual (s : DenseSet) : Nat := (s.entries.filter (fun c => !c.isEmpty)).length

/-- The number of link nodes allocated across all chains. -/
def chainsActual (s : DenseSet) : Nat := (s.entries.map DensePtr.chainLinks).sum

/-- The destructor `~DenseSet` (dense_set.cc:75-79) runs
`CHECK(entries_.empty())`: it aborts fatally iff the bucket vector is
non-empty. -/
def destructorAborts (s : DenseSet) : Bool := !s.entries.isEmpty

/-- No word of this chain is an expired ttl entry at time `tn`. -/
def chainNoExpired (env : Env) (tn : Nat) : DensePtr → Bool
  | .empty => true
  | .obj o t _ _ => !(t && decide (env.expireTime o ≤ tn))
  | .link p n _t _ _ => !(_t && decide (env.expireTime p ≤ tn)) && chainNoExpired env tn n

/-- The set holds no expired entry (every sweep is a no-op). -/
def noExpired (env : Env) (s : DenseSet) : Bool :=
  s.entries.all (chainNoExpired env s.timeNow)

/-- A concrete test-stub environment (spec §8: `hash` behaves like identity on
stub objects): object `o` hashes by `o mod 100`, objects are `equal` when
congruent mod 100, and `o` expires at time `o`. -/
def stubEnv : Env :=
  { hash := fun o _ => (o % 100) * 2 ^ 62,
    equal := fun a b _ => a % 100 == b % 100,
    allocSize := fun _ => 1,
    expireTime := fun o => o }

/-- A second test-stub environment for an 8-bucket table: object `o` is homed
at bucket `o mod 8` once `capacity_log = 3`. -/
def stubEnv8 : Env :=
  { hash := fun o _ => o * 2 ^ 61,
    equal := fun a b _ => a == b,
    allocSize := fun _ => 1,
    expireTime := fun o => o }


/-- The multiset of objects stored in the set. -/
def objectsM (s : DenseSet) : Multiset Obj := (objectsOf s : Multiset Obj)

/-- The multiset of objects of a bucket vector, bucket by bucket. -/
def chainsM (l : List DensePtr) : Multiset Obj :=
  (l.map fun c => (c.chainObjs : Multiset Obj)).sum

/-- A slot word is non-expired as a chain entry: its ttl bit and the object
it points at do not make it expired at time `tn`. -/
def headOk (env : Env) (tn : Nat) (w : DensePtr) : Bool :=
  !(w.hasTtl && decide (env.expireTime w.getObject ≤ tn))


/-- The positions scanned when walking from `b` in direction `step`
(`step = 1` walks right up to the end of the vector, otherwise left down
to 0). -/
def dispRay (len b : Nat) (step : Int) : List Nat :=
  if step = 1 then (List.range (len - b)).map (fun k => b + k)
  else (List.range (b + 1)).reverse

/-- The number of consecutive displaced bucket heads along a ray. -/
def runFrom (s : DenseSet) (l : List Nat) : Nat :=
  (l.takeWhile (fun j => (s.bucket j).isDisplaced)).length

/-- The number of consecutive displaced bucket heads starting at `bid` along
the eviction direction of `bid`'s head (0 when the head is not displaced).
The eviction direction is the opposite of the head's displacement
direction — the cascade retargets `bucket_id -= displace_dir`. -/
def evictRun (s : DenseSet) (bid : Nat) : Nat :=
  if (s.bucket bid).isDisplaced then
    runFrom s (dispRay s.entries.length bid (-(s.bucket bid).getDisplacedDirection))
  else 0

/-- The displaced-head part of the set's invariant: every displaced bucket
head is a sole inline object, its direction is ±1, and its true home bucket
(`bucket_id(obj)`) is exactly `b − displace_dir`, in range. -/
def displacedHeadsOk (env : Env) (s : DenseSet) : Bool :=
  (List.range s.entries.length).all fun b =>
    !(s.bucket b).isDisplaced ||
      ((s.bucket b).isObject &&
       (decide ((s.bucket b).getDisplacedDirection = 1) ||
        decide ((s.bucket b).getDisplacedDirection = -1)) &&
       decide (0 ≤ (b : Int) - (s.bucket b).getDisplacedDirection) &&
       decide ((b : Int) - (s.bucket b).getDisplacedDirection < s.entries.length) &&
       decide (bucketIdOf env s.capacityLog (s.bucket b).getObject 0 =
         ((b : Int) - (s.bucket b).getDisplacedDirection).toNat))


/-- The objects `Scan` hands to the callback when it settles on bucket `j` of
a state with no expired entries (so every expiry sweep is a no-op): the home
chain when the head is a non-displaced owner, plus each neighbor head
displaced into `j` (dense_set.cc:662-699). -/
def scanEmit (env : Env) (s : DenseSet) (j : Nat) : List Obj :=
  (if !(s.bucket j).isEmpty && !(s.bucket j).isDisplaced
    then (s.bucket j).chainObjs else []) ++
  ((if j > 0 then
    (if (s.bucket (j - 1)).isDisplaced &&
        decide ((s.bucket (j - 1)).getDisplacedDirection = -1)
      then [(s.bucket (j - 1)).getObject] else [])
    else []) ++
  (if j + 1 < s.entries.length then
    (if (s.bucket (j + 1)).isDisplaced &&
        decide ((s.bucket (j + 1)).getDisplacedDirection = 1)
      then [(s.bucket (j + 1)).getObject] else [])
    else []))

/-- The scan protocol of the claim: call `Scan` repeatedly, feeding each
returned cursor into the next call, until it returns cursor 0; collect every
object handed to the callback, in order. -/
def scanLoopF (env : Env) : Nat → DenseSet → Nat → DenseSet × List Obj
  | 0, s, _ => (s, [])
  | fuel + 1, s, cursor =>
      let r := scan env s cursor
      if r.2.2 = 0 then (r.1, r.2.1)
      else
        let r2 := scanLoopF env fuel r.1 r.2.2
        (r2.1, r.2.1 ++ r2.2)

/-- A full scan starting from cursor 0.  The fuel `entries.length + 1` is
never exhausted: the decoded start index strictly increases each round. -/
def scanAll (env : Env) (s : DenseSet) : DenseSet × List Obj :=
  scanLoopF env (s.entries.length + 1) s 0

/-! # Theorems

Basic facts about the model used throughout. -/

theorem chainLen_expireLoop_le (env : Env) (tn : Nat) (c : DensePtr) :
    (expireLoop env tn c).node.chainLen ≤ c.chainLen := by
  induction c with
  | empty => simp [expireLoop, DensePtr.chainLen, DensePtr.chainObjs]
  | obj o t d dir =>
      by_cases h : env.expireTime o ≤ tn <;>
        simp [expireLoop, h, DensePtr.chainLen, DensePtr.chainObjs]
  | link p n t d dir ih =>
      by_cases h : env.expireTime p ≤ tn
      · by_cases hn : n.hasTtl
        · simpa [expireLoop, h, hn, DensePtr.chainLen, DensePtr.chainObjs] using
            Nat.le_succ_of_le ih
        · simp [expireLoop, h, hn, DensePtr.chainLen, DensePtr.chainObjs]
      · simp [expireLoop, h, DensePtr.chainLen, DensePtr.chainObjs]

theorem chainLen_expireIfNeeded_le (env : Env) (tn : Nat) (c : DensePtr) :
    (expireIfNeeded env tn c).node.chainLen ≤ c.chainLen := by
  unfold expireIfNeeded
  by_cases h : c.hasTtl
  · simpa [h] using chainLen_expireLoop_le env tn c
  · simp [h]

theorem length_applyExpireHead (env : Env) (s : DenseSet) (b : Nat) :
    (applyExpireHead env s b).entries.length = s.entries.length := by
  simp [applyExpireHead, List.length_set]

theorem length_noItemBelongsBucket (env : Env) (s : DenseSet) (bid : Nat) :
    (noItemBelongsBucket env s bid).1.entries.length = s.entries.length := by
  unfold noItemBelongsBucket
  dsimp only
  split
  · simp [length_applyExpireHead]
  · split <;> split <;> (try split) <;> (try split) <;>
      simp [length_applyExpireHead]

theorem chainLen_expire_lt_link (env : Env) (tn : Nat) (p : Obj) (n : DensePtr)
    (t d : Bool) (dir : Int) :
    (expireIfNeeded env tn n).node.chainLen < (DensePtr.link p n t d dir).chainLen := by
  have h := chainLen_expireIfNeeded_le env tn n
  simp only [DensePtr.chainLen, DensePtr.chainObjs, List.length_cons] at h ⊢
  omega


theorem clearBucketLoop_eq_chainObjs (c : DensePtr) : clearBucketLoop c = c.chainObjs := by
  induction c <;> simp [clearBucketLoop, DensePtr.chainObjs, *]

/-! ## Claim C8 — the destructor requires an empty bucket vector -/

/-- C8: destroying a `DenseSet` whose bucket vector is non-empty violates the
`CHECK(entries_.empty())` precondition and aborts; the destructor succeeds
exactly when the vector is empty, which `clear` establishes. -/
theorem c8_destructor_requires_empty (s : DenseSet) :
    destructorAborts (clearInternal s).1 = false ∧
    (destructorAborts s = false ↔ s.entries = []) := by
  refine ⟨rfl, ?_⟩
  simp [destructorAborts, List.isEmpty_iff]

/-! ## Claim C9 — scan on a zero-capacity set -/

/-- C9: for every cursor value, `Scan` on a set whose `capacity_log_` is 0
returns 0 immediately, emits nothing, and leaves the state unchanged. -/
theorem c9_scan_zero_capacity (env : Env) (s : DenseSet) (cursor : Nat)
    (h : s.capacityLog = 0) : scan env s cursor = (s, [], 0) := by
  simp [scan, h]

theorem c9_witness :
    (DenseSet.init 3).capacityLog = 0 ∧
    scan stubEnv (DenseSet.init 3) 12345 = (DenseSet.init 3, [], 0) :=
  ⟨rfl, c9_scan_zero_capacity stubEnv (DenseSet.init 3) 12345 rfl⟩

/-! ## Claim C10 — what ClearInternal re-establishes -/

/-- C10, counterexample: after one insert and `ClearInternal`, the bucket
vector is empty but `capacity_log_` is still 2 — `ClearInternal` does not
re-establish `capacity_log = 0 ⇔ buckets empty`. -/
theorem c10_counterexample :
    (clearInternal ((addOrFindDense stubEnv (DenseSet.init 0) 0 false).1)).1.entries = [] ∧
    (clearInternal ((addOrFindDense stubEnv (DenseSet.init 0) 0 false).1)).1.capacityLog ≠ 0 := by
  decide

/-- C10, amended: after `ClearInternal`, the bucket vector is empty and
`size`, `used_buckets`, `chain_entries` are 0, and the objects handed to the
destroy callback are exactly the set's live objects (bucket by bucket, front
to back); `capacity_log` is left at its previous value, so
`capacity_log = 0 ⇔ buckets empty` is *not* re-established. -/
theorem c10_clear_postcondition (s : DenseSet) :
    (clearInternal s).1.entries = [] ∧
    (clearInternal s).1.size = 0 ∧
    (clearInternal s).1.numUsedBuckets = 0 ∧
    (clearInternal s).1.numChainEntries = 0 ∧
    (clearInternal s).1.capacityLog = s.capacityLog ∧
    (clearInternal s).2 = objectsOf s := by
  refine ⟨rfl, rfl, rfl, rfl, rfl, ?_⟩
  simp only [clearInternal, objectsOf]
  congr 1
  exact List.map_congr_left fun c _ => clearBucketLoop_eq_chainObjs c

/-! ## Claim C5 — ExpireIfNeededInternal -/

/-- C5: entered on a slot with the ttl bit set, the expiry loop deletes the
slot's object exactly when `expire_time(obj) ≤ time_now` (so it reports a
deletion iff that holds), every object it deletes is expired, and it stops
only once the slot no longer holds an expired ttl entry. -/
theorem c5_expire_internal (env : Env) (tn : Nat) (c : DensePtr)
    (h : c.hasTtl = true) :
    ((expireLoop env tn c).deleted ≠ [] ↔ env.expireTime c.getObject ≤ tn) ∧
    (∀ o ∈ (expireLoop env tn c).deleted, env.expireTime o ≤ tn) ∧
    ¬((expireLoop env tn c).node.hasTtl = true ∧
      env.expireTime (expireLoop env tn c).node.getObject ≤ tn) := by
  induction c with
  | empty => simp [DensePtr.hasTtl] at h
  | obj o t d dir =>
      by_cases he : env.expireTime o ≤ tn <;>
        simp [expireLoop, he, DensePtr.getObject, DensePtr.hasTtl]
  | link p n t d dir ih =>
      by_cases he : env.expireTime p ≤ tn
      · by_cases hn : n.hasTtl
        · obtain ⟨ih1, ih2, ih3⟩ := ih hn
          refine ⟨?_, ?_, ?_⟩
          · simp [expireLoop, he, hn, DensePtr.getObject]
          · intro o ho
            simp [expireLoop, he, hn] at ho
            rcases ho with rfl | ho
            · simpa [DensePtr.getObject] using he
            · exact ih2 o ho
          · simpa [expireLoop, he, hn] using ih3
        · refine ⟨?_, ?_, ?_⟩
          · simp [expireLoop, he, hn, DensePtr.getObject]
          · intro o ho
            simp [expireLoop, he, hn] at ho
            subst ho
            simpa [DensePtr.getObject] using he
          · simp only [expireLoop]
            rw [if_pos he, if_neg hn]
            intro hcon
            exact absurd hcon.1 hn
      · simp [expireLoop, he, DensePtr.getObject, DensePtr.hasTtl]

theorem c5_witness :
    (DensePtr.link 3 (DensePtr.obj 7 true false 0) true false 0).hasTtl = true ∧
    (((expireLoop stubEnv 5 (DensePtr.link 3 (DensePtr.obj 7 true false 0) true false 0)).deleted ≠ [] ↔
        stubEnv.expireTime
          (DensePtr.link 3 (DensePtr.obj 7 true false 0) true false 0).getObject ≤ 5) ∧
      (∀ o ∈ (expireLoop stubEnv 5
          (DensePtr.link 3 (DensePtr.obj 7 true false 0) true false 0)).deleted,
        stubEnv.expireTime o ≤ 5) ∧
      ¬((expireLoop stubEnv 5
            (DensePtr.link 3 (DensePtr.obj 7 true false 0) true false 0)).node.hasTtl = true ∧
        stubEnv.expireTime
          (expireLoop stubEnv 5
            (DensePtr.link 3 (DensePtr.obj 7 true false 0) true false 0)).node.getObject ≤ 5)) :=
  ⟨by decide, c5_expire_internal stubEnv 5 _ (by decide)⟩

/-! ## Claim C4 — the counter equation -/

/-- C4: the counter equation `used_buckets + chain_entries = size` is broken
by a reachable insert: on an 8-bucket table holding `{3, 4, 11, 10, 0}` with
`11` displaced to bucket 2 and `10` displaced to bucket 1, erasing `3` and
inserting `9` makes the displacement cascade terminate at the now-empty
bucket 3, where `AddUnique` increments `size_` but neither
`num_used_buckets_` (the `entries_[bucket_id].IsEmpty()` branch has no
increment) nor `num_chain_entries_`.  The structural quantities themselves
still balance — only the counters drift. -/
theorem c4_counter_equation_bug :
    (let t0 := reserveOp stubEnv8 (DenseSet.init 0) 8
     let t1 := [3, 4, 11, 10, 0].foldl
       (fun t o => (addOrFindDense stubEnv8 t o false).1) t0
     let t2 := (eraseObj stubEnv8 t1 3 0).1
     let t3 := (addOrFindDense stubEnv8 t2 9 false).1
     t3.numUsedBuckets + t3.numChainEntries ≠ t3.size ∧
       t3.numUsedBuckets = 4 ∧ t3.numChainEntries = 0 ∧ t3.size = 5 ∧
       usedActual t3 + chainsActual t3 = (objectsOf t3).length) := by
  decide



/-! ## Preservation facts -/

theorem list_set_getD {α : Type} (l : List α) (b : Nat) (d : α) :
    l.set b (l.getD b d) = l := by
  apply List.ext_getElem?
  intro i
  by_cases hib : i = b
  · subst hib
    by_cases h : i < l.length
    · simp [List.getElem?_set, h, List.getD_eq_getElem _ _ h]
    · simp [List.getElem?_set, h]
      omega
  · simp only [List.getElem?_set]
    rw [if_neg (fun h => hib h.symm)]

theorem bucket_mem_or_empty (s : DenseSet) (b : Nat) :
    s.bucket b ∈ s.entries ∨ s.bucket b = DensePtr.empty := by
  unfold DenseSet.bucket
  rcases hg : s.entries[b]? with _ | c
  · right; simp [List.getD, hg]
  · left
    have hb : b < s.entries.length := by
      by_contra hb
      simp [List.getElem?_eq_none (by omega : s.entries.length ≤ b)] at hg
    rw [List.getElem?_eq_getElem hb] at hg
    cases hg
    have : s.bucket b = s.entries[b] := by
      unfold DenseSet.bucket
      simp [List.getD, List.getElem?_eq_getElem hb]
    unfold DenseSet.bucket at this
    rw [this]
    exact List.getElem_mem hb

theorem expireIfNeeded_noExpired (env : Env) (tn : Nat) (c : DensePtr)
    (h : chainNoExpired env tn c = true) :
    expireIfNeeded env tn c = ⟨c, [], 0, false⟩ := by
  cases c with
  | empty => rfl
  | obj o t d dir =>
      by_cases ht : t
      · subst ht
        simp only [chainNoExpired, Bool.true_and, Bool.not_eq_true'] at h
        simp [expireIfNeeded, expireLoop, DensePtr.hasTtl, of_decide_eq_false h]
      · simp [expireIfNeeded, DensePtr.hasTtl, ht]
  | link p n t d dir =>
      by_cases ht : t
      · subst ht
        simp only [chainNoExpired, Bool.true_and, Bool.and_eq_true, Bool.not_eq_true'] at h
        simp [expireIfNeeded, expireLoop, DensePtr.hasTtl, of_decide_eq_false h.1]
      · simp [expireIfNeeded, DensePtr.hasTtl, ht]

theorem bucket_chainNoExpired (env : Env) (s : DenseSet) (b : Nat)
    (h : noExpired env s = true) :
    chainNoExpired env s.timeNow (s.bucket b) = true := by
  rcases bucket_mem_or_empty s b with hmem | hmem
  · exact List.all_eq_true.mp h _ hmem
  · rw [hmem]; rfl

theorem applyExpireHead_noExpired (env : Env) (s : DenseSet) (b : Nat)
    (h : noExpired env s = true) :
    applyExpireHead env s b = s := by
  unfold applyExpireHead
  rw [expireIfNeeded_noExpired env s.timeNow (s.bucket b) (bucket_chainNoExpired env s b h)]
  simp only [List.length_nil, Nat.cast_zero, sub_zero, List.map_nil, List.sum_nil,
    Bool.false_eq_true, if_false]
  rw [show s.entries.set b (s.bucket b) = s.entries from
    list_set_getD s.entries b DensePtr.empty]

theorem length_findEmptyAround (env : Env) (s : DenseSet) (bid : Nat) :
    (findEmptyAround env s bid).1.entries.length = s.entries.length := by
  unfold findEmptyAround
  dsimp only
  split_ifs <;> simp [length_applyExpireHead]

theorem size_applyExpireHead_le (env : Env) (s : DenseSet) (b : Nat) :
    (applyExpireHead env s b).size ≤ s.size := by
  simp only [applyExpireHead]
  omega

theorem size_findEmptyAround_le (env : Env) (s : DenseSet) (bid : Nat) :
    (findEmptyAround env s bid).1.size ≤ s.size := by
  unfold findEmptyAround
  dsimp only
  split_ifs
  all_goals
    repeat refine le_trans (size_applyExpireHead_le _ _ _) ?_
    exact le_refl _

theorem findEmptyAround_noExpired_state (env : Env) (s : DenseSet) (bid : Nat)
    (h : noExpired env s = true) :
    (findEmptyAround env s bid).1 = s := by
  unfold findEmptyAround
  dsimp only
  rw [applyExpireHead_noExpired env s bid h]
  split_ifs <;>
    simp [applyExpireHead_noExpired env s _ h]

theorem length_movesFold (moves : List (Nat × DensePtr)) (s : DenseSet) :
    (moves.foldl
      (fun t m => t.setBucket m.1 ((pushFrontPtr (t.bucket m.1) m.2).clearDisplaced))
      s).entries.length = s.entries.length := by
  induction moves generalizing s with
  | nil => rfl
  | cons m ms ih =>
      rw [List.foldl_cons, ih]
      simp [DenseSet.setBucket, List.length_set]


theorem size_movesFold (moves : List (Nat × DensePtr)) (s : DenseSet) :
    (moves.foldl
      (fun t m => t.setBucket m.1 ((pushFrontPtr (t.bucket m.1) m.2).clearDisplaced))
      s).size = s.size := by
  induction moves generalizing s with
  | nil => rfl
  | cons m ms ih =>
      rw [List.foldl_cons, ih]
      rfl

theorem length_growStep (env : Env) (s : DenseSet) (i : Nat) :
    (growStep env s i).entries.length = s.entries.length := by
  unfold growStep
  dsimp only
  rw [length_movesFold]
  simp [List.length_set]

theorem size_growStep_le (env : Env) (s : DenseSet) (i : Nat) :
    (growStep env s i).size ≤ s.size := by
  unfold growStep
  dsimp only
  rw [size_movesFold]
  dsimp only
  omega

theorem length_grow (env : Env) (s : DenseSet) (n : Nat) :
    (grow env s n).entries.length = s.entries.length := by
  unfold grow
  generalize (List.range n).reverse = l
  induction l generalizing s with
  | nil => rfl
  | cons i l ih => simp [List.foldl_cons, ih, length_growStep]

theorem size_grow_le (env : Env) (s : DenseSet) (n : Nat) :
    (grow env s n).size ≤ s.size := by
  unfold grow
  generalize (List.range n).reverse = l
  induction l generalizing s with
  | nil => exact le_refl _
  | cons i l ih =>
      simp only [List.foldl_cons]
      exact le_trans (ih _) (size_growStep_le env s i)

theorem length_addGrowStep (env : Env) (s : DenseSet) :
    (addGrowStep env s).entries.length = 2 * s.entries.length := by
  unfold addGrowStep
  dsimp only
  rw [length_grow]
  simp [List.length_append, List.length_replicate]
  ring

theorem size_addGrowStep_le (env : Env) (s : DenseSet) :
    (addGrowStep env s).size ≤ s.size := by
  unfold addGrowStep
  dsimp only
  exact size_grow_le env _ _

theorem length_flatPlace (env : Env) (s : DenseSet) (idx bid : Nat) (o : Obj) (ttl : Bool) :
    (flatPlace env s idx bid o ttl).entries.length = s.entries.length := by
  simp [flatPlace, List.length_set]

theorem length_cascade (env : Env) (fuel : Nat) (s : DenseSet) (ti : DensePtr) (bid : Nat) :
    (cascade env fuel s ti bid).1.entries.length = s.entries.length := by
  induction fuel generalizing s ti bid with
  | zero => rfl
  | succ fuel ih =>
      unfold cascade
      dsimp only
      split
      · rw [ih]
        simp [DenseSet.setBucket, List.length_set]
      · rfl

theorem length_cascadeInsert (env : Env) (s : DenseSet) (o : Obj) (ttl : Bool) (bid : Nat) :
    (cascadeInsert env s o ttl bid).entries.length = s.entries.length := by
  unfold cascadeInsert
  dsimp only
  split_ifs <;> simp [List.length_set, length_cascade]

/-! ## Claim C7 — the load-factor check at the insertion point -/

/-- C7, counterexample: with four home-0 objects filling a 4-bucket table
(`size == capacity == 4`), inserting an object homed at the empty bucket 3
places it through the flat attempt without growing: the vector still has 4
buckets and `size` is 5. -/
theorem c7_counterexample :
    (let s4 := [0, 4, 8, 16].foldl
        (fun t o => (addOrFindDense stubEnv t o false).1) (DenseSet.init 0)
     let s5 := (addOrFindDense stubEnv s4 3 false).1
     s4.size = (s4.entries.length : Int) ∧ s4.entries.length = 4 ∧
       s5.entries.length = 4 ∧ s5.size = 5 ∧ 3 ∈ objectsOf s5) := by
  decide

/-- C7, amended: the insert path grows (doubles the vector exactly once)
before placing if and only if the flat attempt around the home bucket finds
no empty slot *and* `size ≥ entries.size()` at that moment; a flat placement
into `h`, `h+1` or `h−1` can happen at any load, even `size == capacity`.
Stated here for a set with no expired entries: when `size = capacity` and the
flat attempt fails, `AddUnique` doubles the vector before placing. -/
theorem c7_amended (env : Env) (s : DenseSet) (o : Obj) (ttl : Bool) (hc : Nat)
    (hne : s.entries ≠ [])
    (hex : noExpired env s = true)
    (hsz : s.size = (s.entries.length : Int))
    (hflat : (findEmptyAround env s (bucketIdOfHash s.capacityLog hc)).2 = none) :
    (addUnique env s o ttl hc).entries.length = 2 * s.entries.length := by
  have h0 : s.entries.isEmpty = false := by
    simpa [List.isEmpty_iff] using hne
  have hn1 : 1 ≤ s.entries.length := by
    cases hl : s.entries with
    | nil => exact absurd hl hne
    | cons a l => simp [hl]
  have hfe : findEmptyAround env s (bucketIdOfHash s.capacityLog hc) = (s, none) := by
    have h1 := findEmptyAround_noExpired_state env s (bucketIdOfHash s.capacityLog hc) hex
    rcases hp : findEmptyAround env s (bucketIdOfHash s.capacityLog hc) with ⟨a, b⟩
    rw [hp] at h1 hflat
    simp only at h1 hflat
    rw [h1, hflat]
  unfold addUnique
  rw [h0]
  simp only [Bool.false_eq_true, if_false]
  rw [hfe]
  dsimp only
  rw [if_neg (by omega)]
  rcases hfe2 : findEmptyAround env (addGrowStep env s)
      (bucketIdOfHash (addGrowStep env s).capacityLog hc) with ⟨s2, r2⟩
  have hlen2 : s2.entries.length = 2 * s.entries.length := by
    have h1 := length_findEmptyAround env (addGrowStep env s)
      (bucketIdOfHash (addGrowStep env s).capacityLog hc)
    rw [hfe2] at h1
    simpa [length_addGrowStep] using h1
  have hsz2 : s2.size ≤ s.size := by
    have h1 := size_findEmptyAround_le env (addGrowStep env s)
      (bucketIdOfHash (addGrowStep env s).capacityLog hc)
    rw [hfe2] at h1
    exact le_trans h1 (size_addGrowStep_le env s)
  dsimp only
  cases r2 with
  | some idx =>
      dsimp only
      rw [length_flatPlace, hlen2]
  | none =>
      dsimp only
      rw [if_pos (by rw [hlen2]; omega)]
      rw [length_cascadeInsert, hlen2]

theorem c7_amended_witness :
    (let s4 := [0, 4, 8, 16].foldl
        (fun t o => (addOrFindDense stubEnv t o false).1) (DenseSet.init 0)
     s4.entries ≠ [] ∧ noExpired stubEnv s4 = true ∧
       s4.size = (s4.entries.length : Int) ∧
       (findEmptyAround stubEnv s4
         (bucketIdOfHash s4.capacityLog (stubEnv.hash 20 0))).2 = none ∧
       (addUnique stubEnv s4 20 false (stubEnv.hash 20 0)).entries.length =
         2 * s4.entries.length) :=
  ⟨by decide, by decide, by decide, by decide,
   c7_amended stubEnv _ 20 false (stubEnv.hash 20 0)
     (by decide) (by decide) (by decide) (by decide)⟩



/-! ## Object-multiset accounting -/

theorem objectsM_eq_chainsM (s : DenseSet) : objectsM s = chainsM s.entries := by
  unfold objectsM objectsOf chainsM
  induction s.entries with
  | nil => rfl
  | cons c cs ih =>
      simp only [List.flatten_cons, List.map_cons, List.sum_cons, ← ih]
      rfl

theorem chainObjs_setTtl (b : Bool) (c : DensePtr) :
    (c.setTtl b).chainObjs = c.chainObjs := by
  cases c <;> rfl

theorem chainObjs_clearDisplaced (c : DensePtr) :
    c.clearDisplaced.chainObjs = c.chainObjs := by
  cases c <;> rfl

theorem chainObjs_pushFrontPtr (c p : DensePtr) :
    (pushFrontPtr c p).chainObjs = p.getObject :: c.chainObjs := by
  rcases c with _ | ⟨o, t, d, dir⟩ | ⟨pl, n, t, d, dir⟩ <;>
    rcases p with _ | ⟨o2, t2, d2, dir2⟩ | ⟨pl2, n2, t2, d2, dir2⟩ <;>
      simp only [pushFrontPtr, DensePtr.isEmpty, DensePtr.isLink, DensePtr.setObject,
        DensePtr.setLink, DensePtr.withNext, DensePtr.getObject, DensePtr.chainObjs,
        DensePtr.hasTtl, Bool.false_eq_true, if_true, if_false]
  all_goals try split_ifs
  all_goals simp [DensePtr.setTtl, DensePtr.chainObjs, DensePtr.getObject]

theorem chainNoExpired_clearDisplaced (env : Env) (tn : Nat) (c : DensePtr) :
    chainNoExpired env tn c.clearDisplaced = chainNoExpired env tn c := by
  cases c <;> rfl

theorem chainNoExpired_setTtlTrue_of_headOk (env : Env) (tn : Nat) (c : DensePtr) :
    chainNoExpired env tn (c.setTtl c.hasTtl) = chainNoExpired env tn c := by
  cases c <;> rfl

theorem chainNoExpired_pushFrontPtr (env : Env) (tn : Nat) (c p : DensePtr)
    (hc : chainNoExpired env tn c = true) (hp : headOk env tn p = true) :
    chainNoExpired env tn (pushFrontPtr c p) = true := by
  unfold headOk at hp
  rcases c with _ | ⟨o, t, d, dir⟩ | ⟨pl, n, t, d, dir⟩ <;>
    rcases p with _ | ⟨o2, t2, d2, dir2⟩ | ⟨pl2, n2, t2, d2, dir2⟩ <;>
      simp only [pushFrontPtr, DensePtr.isEmpty, DensePtr.isLink, DensePtr.setObject,
        DensePtr.setLink, DensePtr.withNext, DensePtr.getObject, DensePtr.hasTtl,
        Bool.false_eq_true, if_true, if_false]
  all_goals try split_ifs
  all_goals
    simp_all [DensePtr.setTtl, chainNoExpired, DensePtr.hasTtl, DensePtr.getObject]

theorem chainsM_append (l1 l2 : List DensePtr) :
    chainsM (l1 ++ l2) = chainsM l1 + chainsM l2 := by
  simp [chainsM]

theorem chainsM_cons (c : DensePtr) (l : List DensePtr) :
    chainsM (c :: l) = ↑c.chainObjs + chainsM l := by
  simp [chainsM]

theorem chainsM_replicate_empty (n : Nat) :
    chainsM (List.replicate n DensePtr.empty) = 0 := by
  induction n with
  | zero => rfl
  | succ n ih =>
      rw [List.replicate_succ, chainsM_cons, ih]
      simp [DensePtr.chainObjs]

theorem chainsM_set (l : List DensePtr) (b : Nat) (x : DensePtr) (hb : b < l.length) :
    chainsM (l.set b x) + ↑(l.getD b DensePtr.empty).chainObjs
      = chainsM l + ↑x.chainObjs := by
  induction l generalizing b with
  | nil => simp at hb
  | cons c cs ih =>
      cases b with
      | zero =>
          simp only [List.set_cons_zero, List.getD_cons_zero, chainsM_cons]
          abel
      | succ b =>
          have hb' : b < cs.length := by simpa using hb
          simp only [List.set_cons_succ, List.getD_cons_succ, chainsM_cons]
          rw [add_assoc, ih b hb', ← add_assoc]

theorem bucketIdOfHash_lt (clog hc : Nat) : bucketIdOfHash clog hc < 2 ^ clog := by
  unfold bucketIdOfHash
  rw [Nat.shiftRight_eq_div_pow]
  by_cases h : clog ≤ 64
  · apply Nat.div_lt_of_lt_mul
    calc hc % 2 ^ 64 < 2 ^ 64 := Nat.mod_lt _ (by positivity)
      _ = 2 ^ (64 - clog) * 2 ^ clog := by rw [← pow_add]; congr 1; omega
  · have h0 : 64 - clog = 0 := by omega
    rw [h0, pow_zero, Nat.div_one]
    calc hc % 2 ^ 64 < 2 ^ 64 := Nat.mod_lt _ (by positivity)
      _ ≤ 2 ^ clog := Nat.pow_le_pow_right (by omega) (by omega)

/-! ## bit_ceil / log2 facts -/

theorem bitCeilF_pow2 (n : Nat) : ∀ fuel acc, (∃ k, acc = 2 ^ k) →
    ∃ k, bitCeilF n fuel acc = 2 ^ k := by
  intro fuel
  induction fuel with
  | zero => intro acc h; exact h
  | succ fuel ih =>
      intro acc h
      unfold bitCeilF
      split_ifs
      · exact h
      · obtain ⟨k, rfl⟩ := h
        exact ih _ ⟨k + 1, by ring⟩

theorem bitCeilF_ge (n : Nat) : ∀ fuel acc, n ≤ acc * 2 ^ fuel →
    n ≤ bitCeilF n fuel acc := by
  intro fuel
  induction fuel with
  | zero => intro acc h; simpa using h
  | succ fuel ih =>
      intro acc h
      unfold bitCeilF
      split_ifs with hle
      · exact hle
      · exact ih _ (by rw [mul_comm (acc * 2)]; rw [pow_succ] at h; linarith [h])

theorem bitCeil_ge (n : Nat) : n ≤ bitCeil n := by
  unfold bitCeil
  exact bitCeilF_ge n n 1 (by simpa using Nat.le_of_lt (Nat.lt_two_pow n))

theorem bitCeil_pow2 (n : Nat) : ∃ k, bitCeil n = 2 ^ k :=
  bitCeilF_pow2 n n 1 ⟨0, rfl⟩

theorem pLog2F_two_pow (k : Nat) : ∀ fuel, k < fuel → pLog2F fuel (2 ^ k) = k := by
  induction k with
  | zero =>
      intro fuel hf
      cases fuel with
      | zero => omega
      | succ fuel => simp [pLog2F]
  | succ k ih =>
      intro fuel hf
      cases fuel with
      | zero => omega
      | succ fuel =>
          have h2 : 2 ≤ 2 ^ (k + 1) := by
            calc 2 = 2 ^ 1 := rfl
              _ ≤ 2 ^ (k + 1) := Nat.pow_le_pow_right (by omega) (by omega)
          have hdiv : 2 ^ (k + 1) / 2 = 2 ^ k := by
            rw [pow_succ]
            exact Nat.mul_div_cancel _ (by omega)
          simp only [pLog2F, if_pos h2, hdiv]
          rw [ih fuel (by omega)]

theorem two_pow_pLog2_bitCeil (n : Nat) : 2 ^ pLog2 (bitCeil n) = bitCeil n := by
  obtain ⟨k, hk⟩ := bitCeil_pow2 n
  rw [hk]
  unfold pLog2
  rw [pLog2F_two_pow k (2 ^ k) (Nat.lt_two_pow k)]



/-! ## Grow preserves the stored objects (no-expiry case) -/

theorem growWalkF_succ_empty (env : Env) (tn clog i fuel : Nat) (pl : Bool) :
    growWalkF env tn clog i (fuel + 1) pl .empty =
      ⟨some .empty, [], [], 0, 0⟩ := by
  simp [growWalkF, expireIfNeeded, DensePtr.hasTtl]

theorem growWalkF_succ_obj (env : Env) (tn clog i fuel : Nat) (pl : Bool)
    (o : Obj) (t d : Bool) (dir : Int)
    (h : chainNoExpired env tn (.obj o t d dir) = true) :
    growWalkF env tn clog i (fuel + 1) pl (.obj o t d dir) =
      (if bucketIdOf env clog o 0 = i then
        ⟨some (.obj o t false 0), [], [], 0, 0⟩
      else if pl then
        ⟨none, [(bucketIdOf env clog o 0, .obj o t d dir)], [], 0, 0⟩
      else
        ⟨some .empty, [(bucketIdOf env clog o 0, .obj o t d dir)], [], 0, 0⟩) := by
  simp only [growWalkF, expireIfNeeded_noExpired env tn _ h]
  split_ifs <;> simp_all [DensePtr.clearDisplaced]

theorem growWalkF_succ_link (env : Env) (tn clog i fuel : Nat) (pl : Bool)
    (p : Obj) (n : DensePtr) (t d : Bool) (dir : Int)
    (h : chainNoExpired env tn (.link p n t d dir) = true) :
    growWalkF env tn clog i (fuel + 1) pl (.link p n t d dir) =
      (if bucketIdOf env clog p 0 = i then
        ⟨some (match (growWalkF env tn clog i fuel true n).out with
            | none => .obj p false false 0
            | some n' => .link p n' t false 0),
          (growWalkF env tn clog i fuel true n).moves,
          (growWalkF env tn clog i fuel true n).deleted,
          (growWalkF env tn clog i fuel true n).usedD,
          (growWalkF env tn clog i fuel true n).chainsD⟩
      else
        ⟨(growWalkF env tn clog i fuel pl n).out,
          (bucketIdOf env clog p 0, .link p n t d dir) ::
            (growWalkF env tn clog i fuel pl n).moves,
          (growWalkF env tn clog i fuel pl n).deleted,
          (growWalkF env tn clog i fuel pl n).usedD,
          (growWalkF env tn clog i fuel pl n).chainsD⟩) := by
  simp only [growWalkF, expireIfNeeded_noExpired env tn _ h]
  split_ifs <;> simp_all [DensePtr.clearDisplaced, DensePtr.fromLink]

theorem growWalkF_noExpired (env : Env) (tn clog i : Nat) :
    ∀ (fuel : Nat) (pl : Bool) (c : DensePtr), c.chainLen < fuel →
      chainNoExpired env tn c = true →
      (growWalkF env tn clog i fuel pl c).deleted = [] ∧
      ((match (growWalkF env tn clog i fuel pl c).out with
          | none => (0 : Multiset Obj)
          | some w => (w.chainObjs : Multiset Obj)) +
        ↑((growWalkF env tn clog i fuel pl c).moves.map (fun m => m.2.getObject)) =
        (c.chainObjs : Multiset Obj)) ∧
      (∀ w, (growWalkF env tn clog i fuel pl c).out = some w →
        chainNoExpired env tn w = true) ∧
      (∀ m ∈ (growWalkF env tn clog i fuel pl c).moves,
        headOk env tn m.2 = true ∧ m.1 = bucketIdOf env clog m.2.getObject 0) := by
  intro fuel
  induction fuel with
  | zero =>
      intro pl c h
      omega
  | succ fuel ih =>
      intro pl c hlen hne
      rcases c with _ | ⟨o, t, d, dir⟩ | ⟨p, n, t, d, dir⟩
      · rw [growWalkF_succ_empty]
        simp [DensePtr.chainObjs, chainNoExpired]
      · rw [growWalkF_succ_obj env tn clog i fuel pl o t d dir hne]
        by_cases hb : bucketIdOf env clog o 0 = i
        · rw [if_pos hb]
          refine ⟨rfl, by simp [DensePtr.chainObjs], ?_, by simp⟩
          intro w hw
          cases hw
          simpa [chainNoExpired] using hne
        · cases pl <;>
            simp_all [DensePtr.chainObjs, DensePtr.getObject, headOk,
              DensePtr.hasTtl, chainNoExpired]
      · have hlen' : n.chainLen < fuel := by
          simp only [DensePtr.chainLen, DensePtr.chainObjs, List.length_cons] at hlen ⊢
          omega
        have hne' : chainNoExpired env tn n = true := by
          simp only [chainNoExpired, Bool.and_eq_true] at hne
          exact hne.2
        have hhead : (!(t && decide (env.expireTime p ≤ tn))) = true := by
          simp only [chainNoExpired, Bool.and_eq_true] at hne
          exact hne.1
        rw [growWalkF_succ_link env tn clog i fuel pl p n t d dir hne]
        by_cases hb : bucketIdOf env clog p 0 = i
        · rw [if_pos hb]
          obtain ⟨ihd, ihm, ihw, ihmv⟩ := ih true n hlen' hne'
          rcases hout : (growWalkF env tn clog i fuel true n).out with _ | n'
          · rw [hout] at ihm
            simp only [zero_add] at ihm
            refine ⟨ihd, ?_, ?_, ihmv⟩
            · dsimp only
              rw [ihm]
              simp [DensePtr.chainObjs]
            · intro w hw
              dsimp only at hw
              cases hw
              simp [chainNoExpired]
          · rw [hout] at ihm
            simp only at ihm
            refine ⟨ihd, ?_, ?_, ihmv⟩
            · dsimp only
              simp only [DensePtr.chainObjs, ← Multiset.cons_coe, Multiset.cons_add]
              rw [ihm]
            · intro w hw
              dsimp only at hw
              cases hw
              have hn' := ihw n' hout
              simp [chainNoExpired, hn', hhead]
        · rw [if_neg hb]
          obtain ⟨ihd, ihm, ihw, ihmv⟩ := ih pl n hlen' hne'
          refine ⟨ihd, ?_, ihw, ?_⟩
          · simp only [List.map_cons]
            dsimp only [DensePtr.getObject]
            simp only [DensePtr.chainObjs, ← Multiset.cons_coe, Multiset.cons_add,
              Multiset.add_cons]
            dsimp only [DensePtr.getObject] at ihm
            rw [ihm]
          · intro m hm
            simp only [List.mem_cons] at hm
            rcases hm with rfl | hm
            · exact ⟨by simpa [headOk, DensePtr.hasTtl, DensePtr.getObject] using hhead,
                by simp [DensePtr.getObject]⟩
            · exact ihmv m hm


theorem list_all_set {α : Type} (P : α → Bool) (l : List α) (b : Nat) (x : α)
    (h : l.all P = true) (hx : P x = true) : (l.set b x).all P = true := by
  rw [List.all_eq_true] at h ⊢
  intro c hc
  rcases List.mem_or_eq_of_mem_set hc with hc | rfl
  · exact h c hc
  · exact hx

theorem timeNow_movesFold (moves : List (Nat × DensePtr)) (s : DenseSet) :
    (moves.foldl
      (fun t m => t.setBucket m.1 ((pushFrontPtr (t.bucket m.1) m.2).clearDisplaced))
      s).timeNow = s.timeNow := by
  induction moves generalizing s with
  | nil => rfl
  | cons m ms ih => rw [List.foldl_cons, ih]; rfl

theorem capacityLog_movesFold (moves : List (Nat × DensePtr)) (s : DenseSet) :
    (moves.foldl
      (fun t m => t.setBucket m.1 ((pushFrontPtr (t.bucket m.1) m.2).clearDisplaced))
      s).capacityLog = s.capacityLog := by
  induction moves generalizing s with
  | nil => rfl
  | cons m ms ih => rw [List.foldl_cons, ih]; rfl

theorem capacityLog_growStep (env : Env) (s : DenseSet) (i : Nat) :
    (growStep env s i).capacityLog = s.capacityLog := by
  unfold growStep
  dsimp only
  rw [capacityLog_movesFold]

theorem timeNow_growStep (env : Env) (s : DenseSet) (i : Nat) :
    (growStep env s i).timeNow = s.timeNow := by
  unfold growStep
  dsimp only
  rw [timeNow_movesFold]

theorem movesFold_spec (env : Env) (moves : List (Nat × DensePtr)) (s : DenseSet)
    (hall : ∀ m ∈ moves, m.1 < s.entries.length ∧ headOk env s.timeNow m.2 = true)
    (hne : noExpired env s = true) :
    chainsM (moves.foldl
      (fun t m => t.setBucket m.1 ((pushFrontPtr (t.bucket m.1) m.2).clearDisplaced))
      s).entries
      = chainsM s.entries + ↑(moves.map (fun m => m.2.getObject)) ∧
    noExpired env (moves.foldl
      (fun t m => t.setBucket m.1 ((pushFrontPtr (t.bucket m.1) m.2).clearDisplaced))
      s) = true := by
  induction moves generalizing s with
  | nil => simp [hne]
  | cons m ms ih =>
      obtain ⟨hm1, hm2⟩ := hall m (List.mem_cons_self m ms)
      have hbuck : chainNoExpired env s.timeNow (s.bucket m.1) = true :=
        bucket_chainNoExpired env s m.1 hne
      have hxne : chainNoExpired env s.timeNow
          ((pushFrontPtr (s.bucket m.1) m.2).clearDisplaced) = true := by
        rw [chainNoExpired_clearDisplaced]
        exact chainNoExpired_pushFrontPtr env s.timeNow _ _ hbuck hm2
      have hsetne : noExpired env
          (s.setBucket m.1 ((pushFrontPtr (s.bucket m.1) m.2).clearDisplaced)) = true := by
        unfold noExpired DenseSet.setBucket at *
        exact list_all_set _ _ _ _ hne hxne
      have hlen : (s.setBucket m.1
          ((pushFrontPtr (s.bucket m.1) m.2).clearDisplaced)).entries.length
            = s.entries.length := by
        simp [DenseSet.setBucket, List.length_set]
      have htn : (s.setBucket m.1
          ((pushFrontPtr (s.bucket m.1) m.2).clearDisplaced)).timeNow = s.timeNow := rfl
      have hall' : ∀ x ∈ ms, x.1 < (s.setBucket m.1
          ((pushFrontPtr (s.bucket m.1) m.2).clearDisplaced)).entries.length ∧
          headOk env (s.setBucket m.1
            ((pushFrontPtr (s.bucket m.1) m.2).clearDisplaced)).timeNow x.2 = true := by
        intro x hx
        rw [hlen, htn]
        exact hall x (List.mem_cons_of_mem m hx)
      obtain ⟨ih1, ih2⟩ := ih _ hall' hsetne
      rw [List.foldl_cons]
      refine ⟨?_, ih2⟩
      rw [ih1]
      have hset := chainsM_set s.entries m.1
        ((pushFrontPtr (s.bucket m.1) m.2).clearDisplaced) hm1
      have hobj : ((pushFrontPtr (s.bucket m.1) m.2).clearDisplaced).chainObjs
          = m.2.getObject :: (s.bucket m.1).chainObjs := by
        rw [chainObjs_clearDisplaced, chainObjs_pushFrontPtr]
      rw [hobj] at hset
      have hset' : chainsM (s.setBucket m.1
            ((pushFrontPtr (s.bucket m.1) m.2).clearDisplaced)).entries
          = chainsM s.entries + {m.2.getObject} := by
        have hcan : chainsM (s.setBucket m.1
              ((pushFrontPtr (s.bucket m.1) m.2).clearDisplaced)).entries +
              ↑(s.bucket m.1).chainObjs
            = (chainsM s.entries + {m.2.getObject}) + ↑(s.bucket m.1).chainObjs := by
          unfold DenseSet.setBucket DenseSet.bucket at *
          rw [hset]
          simp only [← Multiset.cons_coe, ← Multiset.singleton_add]
          abel
        exact add_right_cancel hcan
      rw [hset']
      simp only [List.map_cons, ← Multiset.cons_coe, ← Multiset.singleton_add]
      abel

theorem growStep_spec (env : Env) (s : DenseSet) (i : Nat)
    (hi : i < s.entries.length)
    (hcap : 2 ^ s.capacityLog ≤ s.entries.length)
    (hne : noExpired env s = true) :
    chainsM (growStep env s i).entries = chainsM s.entries ∧
    noExpired env (growStep env s i) = true := by
  have hbuck : chainNoExpired env s.timeNow (s.bucket i) = true :=
    bucket_chainNoExpired env s i hne
  obtain ⟨hd, hm, hw, hmv⟩ := growWalkF_noExpired env s.timeNow s.capacityLog i
    ((s.bucket i).chainLen + 1) false (s.bucket i) (by omega) hbuck
  unfold growStep growWalk
  dsimp only
  set r := growWalkF env s.timeNow s.capacityLog i ((s.bucket i).chainLen + 1) false
    (s.bucket i) with hr
  have houtobj : ((r.out.getD .empty).chainObjs : Multiset Obj)
      = (match r.out with
          | none => (0 : Multiset Obj)
          | some w => (w.chainObjs : Multiset Obj)) := by
    rcases r.out with _ | w <;> simp [DensePtr.chainObjs]
  have houtne : chainNoExpired env s.timeNow (r.out.getD .empty) = true := by
    rcases hro : r.out with _ | w
    · rfl
    · exact hw w hro
  set s1 : DenseSet :=
    { s with
      entries := s.entries.set i (r.out.getD .empty),
      size := s.size - r.deleted.length,
      numUsedBuckets := s.numUsedBuckets + r.usedD,
      numChainEntries := s.numChainEntries + r.chainsD,
      objMallocUsed := s.objMallocUsed - (r.deleted.map env.allocSize).sum } with hs1
  have hs1len : s1.entries.length = s.entries.length := by
    rw [hs1]; simp [List.length_set]
  have hs1tn : s1.timeNow = s.timeNow := rfl
  have hs1ne : noExpired env s1 = true := by
    rw [hs1]
    unfold noExpired at *
    exact list_all_set _ _ _ _ hne houtne
  have hall : ∀ m ∈ r.moves, m.1 < s1.entries.length ∧
      headOk env s1.timeNow m.2 = true := by
    intro m hmem
    obtain ⟨hok, hbid⟩ := hmv m hmem
    refine ⟨?_, by rw [hs1tn]; exact hok⟩
    rw [hs1len, hbid]
    calc bucketIdOf env s.capacityLog m.2.getObject 0
        < 2 ^ s.capacityLog := bucketIdOfHash_lt _ _
      _ ≤ s.entries.length := hcap
  obtain ⟨hf1, hf2⟩ := movesFold_spec env r.moves s1 hall hs1ne
  refine ⟨?_, hf2⟩
  rw [hf1]
  have hset := chainsM_set s.entries i (r.out.getD .empty) hi
  have hcan : chainsM s1.entries + ↑(s.bucket i).chainObjs
      = chainsM s.entries + ↑((r.out.getD .empty)).chainObjs := by
    rw [hs1]
    unfold DenseSet.bucket at *
    exact hset
  have hkey : (chainsM s1.entries + ↑(r.moves.map (fun m => m.2.getObject))) +
      ↑(s.bucket i).chainObjs = chainsM s.entries + ↑(s.bucket i).chainObjs := by
    calc (chainsM s1.entries + ↑(r.moves.map (fun m => m.2.getObject))) +
          ↑(s.bucket i).chainObjs
        = (chainsM s1.entries + ↑(s.bucket i).chainObjs) +
            ↑(r.moves.map (fun m => m.2.getObject)) := by abel
      _ = (chainsM s.entries + ↑((r.out.getD .empty)).chainObjs) +
            ↑(r.moves.map (fun m => m.2.getObject)) := by rw [hcan]
      _ = chainsM s.entries + (↑((r.out.getD .empty)).chainObjs +
            ↑(r.moves.map (fun m => m.2.getObject))) := by abel
      _ = chainsM s.entries + ↑(s.bucket i).chainObjs := by
            rw [houtobj, hm]
  exact add_right_cancel hkey

theorem grow_fold_spec (env : Env) :
    ∀ (l : List Nat) (s : DenseSet), (∀ i ∈ l, i < s.entries.length) →
      2 ^ s.capacityLog ≤ s.entries.length → noExpired env s = true →
      chainsM (l.foldl (fun t i => growStep env t i) s).entries = chainsM s.entries ∧
      noExpired env (l.foldl (fun t i => growStep env t i) s) = true := by
  intro l
  induction l with
  | nil => intro s _ _ hne; exact ⟨rfl, hne⟩
  | cons i l ih =>
      intro s hil hcap hne
      rw [List.foldl_cons]
      have hi : i < s.entries.length := hil i (List.mem_cons_self i l)
      obtain ⟨h1, h2⟩ := growStep_spec env s i hi hcap hne
      have hlen := length_growStep env s i
      have hcaplog := capacityLog_growStep env s i
      obtain ⟨h3, h4⟩ := ih (growStep env s i)
        (fun j hj => by rw [hlen]; exact hil j (List.mem_cons_of_mem i hj))
        (by rw [hlen, hcaplog]; exact hcap) h2
      exact ⟨by rw [h3, h1], h4⟩

theorem grow_spec (env : Env) (s : DenseSet) (n : Nat)
    (hn : n ≤ s.entries.length)
    (hcap : 2 ^ s.capacityLog ≤ s.entries.length)
    (hne : noExpired env s = true) :
    chainsM (grow env s n).entries = chainsM s.entries ∧
    noExpired env (grow env s n) = true := by
  unfold grow
  exact grow_fold_spec env (List.range n).reverse s
    (fun i hi => by
      have : i < n := by simpa using List.mem_range.mp (List.mem_reverse.mp hi)
      omega)
    hcap hne

/-! ## Claim C3 — grow preserves contents -/

/-- C3: on a set with no expired entries, `Reserve` (here with the doubling
argument `2 * capacity`; the proof goes through `Grow`) leaves the multiset of
stored objects unchanged: no object is lost, duplicated, or added. -/
theorem c3_reserve_preserves_members (env : Env) (s : DenseSet)
    (hex : noExpired env s = true) :
    objectsM (reserveOp env s (2 * s.entries.length)) = objectsM s := by
  rw [objectsM_eq_chainsM, objectsM_eq_chainsM]
  unfold reserveOp
  dsimp only
  split_ifs with hgt
  · set sz := bitCeil (max (2 * s.entries.length) 4) with hsz
    set s1 : DenseSet :=
      { s with entries := s.entries ++ List.replicate (sz - s.entries.length) .empty,
               capacityLog := pLog2 sz } with hs1
    have hs1len : s1.entries.length = sz := by
      rw [hs1]
      simp only [List.length_append, List.length_replicate]
      omega
    have hs1cap : 2 ^ s1.capacityLog ≤ s1.entries.length := by
      rw [hs1len]
      have : s1.capacityLog = pLog2 sz := rfl
      rw [this, hsz, two_pow_pLog2_bitCeil]
    have hs1ne : noExpired env s1 = true := by
      rw [hs1]
      unfold noExpired at *
      simp only [List.all_append, Bool.and_eq_true]
      refine ⟨hex, ?_⟩
      rw [List.all_eq_true]
      intro c hc
      rw [List.eq_of_mem_replicate hc]
      rfl
    have hs1chains : chainsM s1.entries = chainsM s.entries := by
      rw [hs1]
      dsimp only
      rw [chainsM_append, chainsM_replicate_empty, add_zero]
    obtain ⟨h1, _⟩ := grow_spec env s1 s.entries.length
      (by rw [hs1len]; omega) hs1cap hs1ne
    rw [h1, hs1chains]
  · rfl

theorem c3_witness :
    (let s4 := [0, 4, 8, 16].foldl
        (fun t o => (addOrFindDense stubEnv t o false).1) (DenseSet.init 0)
     noExpired stubEnv s4 = true ∧
       objectsM (reserveOp stubEnv s4 (2 * s4.entries.length)) = objectsM s4) :=
  ⟨by decide, c3_reserve_preserves_members stubEnv _ (by decide)⟩


/-! ## C6: termination of the displacement cascade (AddUnique, dense_set.cc:455-470) -/

theorem displacedHeadsOk_spec (env : Env) (s : DenseSet) (b : Nat)
    (H : displacedHeadsOk env s = true) (hb : b < s.entries.length)
    (hd : (s.bucket b).isDisplaced = true) :
    (s.bucket b).isObject = true ∧
    ((s.bucket b).getDisplacedDirection = 1 ∨ (s.bucket b).getDisplacedDirection = -1) ∧
    0 ≤ (b : Int) - (s.bucket b).getDisplacedDirection ∧
    (b : Int) - (s.bucket b).getDisplacedDirection < s.entries.length ∧
    bucketIdOf env s.capacityLog (s.bucket b).getObject 0 =
      ((b : Int) - (s.bucket b).getDisplacedDirection).toNat := by
  unfold displacedHeadsOk at H
  have h := List.all_eq_true.mp H b (List.mem_range.mpr hb)
  simp only [Bool.or_eq_true, Bool.and_eq_true, Bool.not_eq_true', decide_eq_true_eq] at h
  rcases h with h | h
  · simp [hd] at h
  · exact ⟨h.1.1.1.1, h.1.1.1.2, h.1.1.2, h.1.2, h.2⟩

theorem range_reverse_succ (b : Nat) :
    (List.range (b + 1)).reverse = b :: (List.range b).reverse := by
  rw [List.range_succ]; simp

theorem dispRay_neg_head (len b : Nat) :
    dispRay len b (-1) = b :: (List.range b).reverse := by
  unfold dispRay
  rw [if_neg (by decide)]
  exact range_reverse_succ b

theorem dispRay_ne_one (len b : Nat) (step : Int) (h : step ≠ 1) :
    dispRay len b step = b :: (List.range b).reverse := by
  unfold dispRay
  rw [if_neg h]
  exact range_reverse_succ b

theorem dispRay_pos_one (len b : Nat) (hb : b < len) :
    dispRay len b 1 = b :: dispRay len (b + 1) 1 := by
  unfold dispRay
  rw [if_pos rfl, if_pos rfl]
  have h : len - b = (len - (b + 1)) + 1 := by omega
  rw [h, List.range_succ_eq_map]
  simp only [List.map_cons, Nat.add_zero, List.map_map]
  congr 1
  apply List.map_congr_left
  intro j hj
  simp only [Function.comp_apply]
  omega

theorem runFrom_cons (s : DenseSet) (j : Nat) (l : List Nat) :
    runFrom s (j :: l) =
      if (s.bucket j).isDisplaced then runFrom s l + 1 else 0 := by
  unfold runFrom
  rw [List.takeWhile_cons]
  by_cases h : (s.bucket j).isDisplaced
  · rw [if_pos h, if_pos h]; simp
  · rw [if_neg h, if_neg h]; rfl

theorem runFrom_congr (s s2 : DenseSet) (l : List Nat)
    (h : ∀ j ∈ l, s2.bucket j = s.bucket j) : runFrom s2 l = runFrom s l := by
  induction l with
  | nil => rfl
  | cons j t ih =>
      rw [runFrom_cons, runFrom_cons, h j (List.mem_cons_self j t)]
      rw [ih (fun x hx => h x (List.mem_cons_of_mem j hx))]

theorem runFrom_le_length (s : DenseSet) (l : List Nat) : runFrom s l ≤ l.length := by
  unfold runFrom
  induction l with
  | nil => simp
  | cons a t ih =>
      rw [List.takeWhile_cons]
      by_cases h : (s.bucket a).isDisplaced
      · rw [if_pos h]; simpa using ih
      · rw [if_neg h]; simp

theorem evictRun_le (s : DenseSet) (bid : Nat) (hb : bid < s.entries.length) :
    evictRun s bid ≤ s.entries.length := by
  unfold evictRun
  split
  · refine le_trans (runFrom_le_length _ _) ?_
    unfold dispRay
    split
    · simp
    · simp; omega
  · exact Nat.zero_le _

theorem bucket_setBucket_self (s : DenseSet) (b : Nat) (c : DensePtr)
    (hb : b < s.entries.length) : (s.setBucket b c).bucket b = c := by
  simp [DenseSet.setBucket, DenseSet.bucket, List.getD, List.getElem?_set, hb]

theorem bucket_setBucket_ne (s : DenseSet) (b j : Nat) (c : DensePtr) (h : b ≠ j) :
    (s.setBucket b c).bucket j = s.bucket j := by
  simp [DenseSet.setBucket, DenseSet.bucket, List.getD, List.getElem?_set, h]

theorem entries_length_setBucket (s : DenseSet) (b : Nat) (c : DensePtr) :
    (s.setBucket b c).entries.length = s.entries.length := by
  simp [DenseSet.setBucket]

theorem isDisplaced_pushFrontPtr_empty (ti : DensePtr) :
    (pushFrontPtr .empty ti).isDisplaced = false := by
  by_cases h : ti.hasTtl <;>
    simp [pushFrontPtr, DensePtr.setObject, DensePtr.setTtl,
      DensePtr.isDisplaced, DensePtr.isEmpty, h]

theorem displacedHeadsOk_update_clear (env : Env) (s s2 : DenseSet) (bid : Nat)
    (H : displacedHeadsOk env s = true)
    (hlen : s2.entries.length = s.entries.length)
    (hcap : s2.capacityLog = s.capacityLog)
    (hbid : (s2.bucket bid).isDisplaced = false)
    (hne : ∀ j, j ≠ bid → s2.bucket j = s.bucket j) :
    displacedHeadsOk env s2 = true := by
  unfold displacedHeadsOk
  rw [List.all_eq_true]
  intro b hbmem
  rw [List.mem_range, hlen] at hbmem
  by_cases hbb : b = bid
  · subst hbb
    simp [hbid]
  · rw [hne b hbb, hlen, hcap]
    exact List.all_eq_true.mp H b (List.mem_range.mpr hbmem)

theorem cascade_succ_obj (env : Env) (fuel : Nat) (s : DenseSet) (ti : DensePtr)
    (bid : Nat) (o : Obj) (t : Bool) (dir : Int)
    (hb : bid < s.entries.length)
    (hh : s.bucket bid = DensePtr.obj o t true dir) :
    cascade env (fuel + 1) s ti bid =
      (fun r : DenseSet × DensePtr × Nat × Nat => (r.1, r.2.1, r.2.2.1, r.2.2.2 + 1))
        (cascade env fuel
          ((s.setBucket bid DensePtr.empty).setBucket bid (pushFrontPtr DensePtr.empty ti))
          (DensePtr.obj o t true dir) ((bid : Int) - dir).toNat) := by
  have hs1b : (s.setBucket bid DensePtr.empty).bucket bid = DensePtr.empty :=
    bucket_setBucket_self s bid DensePtr.empty hb
  rcases hrec : cascade env fuel
      ((s.setBucket bid DensePtr.empty).setBucket bid (pushFrontPtr DensePtr.empty ti))
      (DensePtr.obj o t true dir) ((bid : Int) - dir).toNat with ⟨s3, ti2, b2, n2⟩
  conv_lhs => rw [cascade.eq_def]
  simp only [hh, DensePtr.isEmpty, DensePtr.isDisplaced, Bool.not_false, Bool.and_self,
    popPtrFront, DensePtr.getDisplacedDirection, hs1b, if_true]
  rw [hrec]

theorem mem_dispRay_pos {len b j : Nat} (hj : j ∈ dispRay len b 1) : b ≤ j := by
  unfold dispRay at hj
  rw [if_pos rfl] at hj
  rcases List.mem_map.mp hj with ⟨k, _, rfl⟩
  omega

theorem evictRun_evict_lt (s s2 : DenseSet) (bid : Nat) (dir : Int)
    (hb : bid < s.entries.length)
    (hd : (s.bucket bid).isDisplaced = true)
    (hdir : (s.bucket bid).getDisplacedDirection = dir)
    (hdirpm : dir = 1 ∨ dir = -1)
    (hge : 0 ≤ (bid : Int) - dir)
    (hltlen : (bid : Int) - dir < s.entries.length)
    (hlen : s2.entries.length = s.entries.length)
    (hnd : (s2.bucket bid).isDisplaced = false)
    (hne : ∀ j, j ≠ bid → s2.bucket j = s.bucket j) :
    evictRun s2 ((bid : Int) - dir).toNat < evictRun s bid := by
  rcases hdirpm with rfl | rfl
  · -- displaced to the right of home: the cascade walks left
    have hb1 : 1 ≤ bid := by omega
    have hbid' : ((bid : Int) - 1).toNat = bid - 1 := by omega
    rw [hbid']
    have e1 : bid = (bid - 1) + 1 := by omega
    have hray' := range_reverse_succ (bid - 1)
    rw [← e1] at hray'
    have hEs : evictRun s bid =
        runFrom s ((bid - 1) :: (List.range (bid - 1)).reverse) + 1 := by
      unfold evictRun
      rw [if_pos hd, hdir, dispRay_neg_head, hray', runFrom_cons, if_pos hd]
    rw [hEs]
    by_cases hd2 : (s.bucket (bid - 1)).isDisplaced = true
    · have hne' : s2.bucket (bid - 1) = s.bucket (bid - 1) := hne _ (by omega)
      by_cases hdir2 : (s.bucket (bid - 1)).getDisplacedDirection = -1
      · -- opposite direction: the run from bid-1 in s2 hits the cleared bucket at once
        have hEs2 : evictRun s2 (bid - 1) = 1 := by
          unfold evictRun
          rw [hne', if_pos hd2, hdir2, neg_neg, hlen]
          rw [dispRay_pos_one _ _ (by omega), ← e1, dispRay_pos_one _ _ (by omega)]
          rw [runFrom_cons, hne', if_pos hd2, runFrom_cons, if_neg (by simp [hnd])]
        rw [hEs2]
        have : runFrom s ((bid - 1) :: (List.range (bid - 1)).reverse) ≥ 1 := by
          rw [runFrom_cons, if_pos hd2]; omega
        omega
      · -- same (or junk) direction: the run from bid-1 avoids bid entirely
        have hnot1 : -(s.bucket (bid - 1)).getDisplacedDirection ≠ 1 := by
          intro hcc
          exact hdir2 (by omega)
        have hEs2 : evictRun s2 (bid - 1) =
            runFrom s ((bid - 1) :: (List.range (bid - 1)).reverse) := by
          unfold evictRun
          rw [hne', if_pos hd2, dispRay_ne_one _ _ _ hnot1]
          apply runFrom_congr
          intro j hj
          rcases List.mem_cons.mp hj with rfl | hj'
          · exact hne'
          · rw [List.mem_reverse, List.mem_range] at hj'
            exact hne _ (by omega)
        rw [hEs2]; omega
    · have hd2' : (s.bucket (bid - 1)).isDisplaced = false := by
        revert hd2; cases (s.bucket (bid - 1)).isDisplaced <;> simp
      have hEs2 : evictRun s2 (bid - 1) = 0 := by
        unfold evictRun
        rw [hne _ (by omega), if_neg (by simp [hd2'])]
      rw [hEs2]; omega
  · -- displaced to the left of home: the cascade walks right
    have hbid' : ((bid : Int) - (-1)).toNat = bid + 1 := by omega
    have hblt : bid + 1 < s.entries.length := by omega
    rw [hbid']
    have hEs : evictRun s bid =
        runFrom s (dispRay s.entries.length (bid + 1) 1) + 1 := by
      unfold evictRun
      rw [if_pos hd, hdir, neg_neg, dispRay_pos_one _ _ hb, runFrom_cons, if_pos hd]
    rw [hEs]
    by_cases hd2 : (s.bucket (bid + 1)).isDisplaced = true
    · have hne' : s2.bucket (bid + 1) = s.bucket (bid + 1) := hne _ (by omega)
      by_cases hdir2 : (s.bucket (bid + 1)).getDisplacedDirection = -1
      · -- same direction: the run from bid+1 avoids bid entirely
        have hEs2 : evictRun s2 (bid + 1) =
            runFrom s (dispRay s.entries.length (bid + 1) 1) := by
          unfold evictRun
          rw [hne', if_pos hd2, hdir2, neg_neg, hlen]
          apply runFrom_congr
          intro j hj
          exact hne _ (by have := mem_dispRay_pos hj; omega)
        rw [hEs2]; omega
      · -- opposite (or junk) direction: the run from bid+1 hits the cleared bucket
        have hnot1 : -(s.bucket (bid + 1)).getDisplacedDirection ≠ 1 := by
          intro hcc
          exact hdir2 (by omega)
        have hEs2 : evictRun s2 (bid + 1) = 1 := by
          unfold evictRun
          rw [hne', if_pos hd2, dispRay_ne_one _ _ _ hnot1]
          rw [range_reverse_succ, runFrom_cons, hne', if_pos hd2,
            runFrom_cons, if_neg (by simp [hnd])]
        rw [hEs2]
        have : runFrom s (dispRay s.entries.length (bid + 1) 1) ≥ 1 := by
          rw [dispRay_pos_one _ _ hblt, runFrom_cons, if_pos hd2]; omega
        omega
    · have hd2' : (s.bucket (bid + 1)).isDisplaced = false := by
        revert hd2; cases (s.bucket (bid + 1)).isDisplaced <;> simp
      have hEs2 : evictRun s2 (bid + 1) = 0 := by
        unfold evictRun
        rw [hne _ (by omega), if_neg (by simp [hd2'])]
      rw [hEs2]; omega

theorem cascade_run_bound (env : Env) :
    ∀ (fuel : Nat) (s : DenseSet) (ti : DensePtr) (bid : Nat),
      displacedHeadsOk env s = true → bid < s.entries.length →
      evictRun s bid < fuel →
      (((cascade env fuel s ti bid).1.bucket (cascade env fuel s ti bid).2.2.1).isEmpty = true ∨
        ((cascade env fuel s ti bid).1.bucket (cascade env fuel s ti bid).2.2.1).isDisplaced =
          false) ∧
      (cascade env fuel s ti bid).2.2.2 ≤ evictRun s bid := by
  intro fuel
  induction fuel with
  | zero => intro s ti bid _ _ hlt; exact absurd hlt (by omega)
  | succ fuel ih =>
    intro s ti bid H hb hlt
    by_cases hd : (s.bucket bid).isDisplaced = true
    · obtain ⟨hobj, hdirpm, hge, hltlen, hhome⟩ := displacedHeadsOk_spec env s bid H hb hd
      rcases hh : s.bucket bid with _ | ⟨o, t, d, dir⟩ | ⟨p, n, t2, d2, dir2⟩
      · rw [hh] at hd; simp [DensePtr.isDisplaced] at hd
      · rw [hh] at hd hobj hdirpm hge hltlen hhome
        have hdt : d = true := by simpa [DensePtr.isDisplaced] using hd
        subst hdt
        simp [DensePtr.getDisplacedDirection] at hdirpm hge hltlen hhome
        have hdir : (s.bucket bid).getDisplacedDirection = dir := by
          rw [hh]; simp [DensePtr.getDisplacedDirection]
        -- the state after one eviction
        have hlen2 : ((s.setBucket bid DensePtr.empty).setBucket bid
            (pushFrontPtr DensePtr.empty ti)).entries.length = s.entries.length := by
          rw [entries_length_setBucket, entries_length_setBucket]
        have hnd2 : (((s.setBucket bid DensePtr.empty).setBucket bid
            (pushFrontPtr DensePtr.empty ti)).bucket bid).isDisplaced = false := by
          rw [bucket_setBucket_self _ _ _ (by rw [entries_length_setBucket]; exact hb)]
          exact isDisplaced_pushFrontPtr_empty ti
        have hne2 : ∀ j, j ≠ bid →
            ((s.setBucket bid DensePtr.empty).setBucket bid
              (pushFrontPtr DensePtr.empty ti)).bucket j = s.bucket j := by
          intro j hj
          rw [bucket_setBucket_ne _ _ _ _ (fun hc => hj hc.symm),
            bucket_setBucket_ne _ _ _ _ (fun hc => hj hc.symm)]
        have hH2 : displacedHeadsOk env ((s.setBucket bid DensePtr.empty).setBucket bid
            (pushFrontPtr DensePtr.empty ti)) = true :=
          displacedHeadsOk_update_clear env s _ bid H hlen2 rfl hnd2 hne2
        have hb2 : ((bid : Int) - dir).toNat <
            ((s.setBucket bid DensePtr.empty).setBucket bid
              (pushFrontPtr DensePtr.empty ti)).entries.length := by
          rw [hlen2]; omega
        have hkey : evictRun ((s.setBucket bid DensePtr.empty).setBucket bid
              (pushFrontPtr DensePtr.empty ti)) ((bid : Int) - dir).toNat <
            evictRun s bid :=
          evictRun_evict_lt s _ bid dir hb (by rw [hh]; exact hd)
            hdir hdirpm (by omega) hltlen hlen2 hnd2 hne2
        have hfu : evictRun ((s.setBucket bid DensePtr.empty).setBucket bid
            (pushFrontPtr DensePtr.empty ti)) ((bid : Int) - dir).toNat < fuel := by
          omega
        have ihres := ih ((s.setBucket bid DensePtr.empty).setBucket bid
            (pushFrontPtr DensePtr.empty ti)) (DensePtr.obj o t true dir)
          ((bid : Int) - dir).toNat hH2 hb2 hfu
        rw [cascade_succ_obj env fuel s ti bid o t dir hb hh]
        rcases hrec : cascade env fuel
            ((s.setBucket bid DensePtr.empty).setBucket bid (pushFrontPtr DensePtr.empty ti))
            (DensePtr.obj o t true dir) ((bid : Int) - dir).toNat with ⟨s3, ti2, b2, n2⟩
        rw [hrec] at ihres
        refine ⟨ihres.1, ?_⟩
        have h2 := ihres.2
        simp only at h2 ⊢
        omega
      · rw [hh] at hobj; simp [DensePtr.isObject] at hobj
    · simp only [Bool.not_eq_true] at hd
      have hstop : cascade env (fuel + 1) s ti bid = (s, ti, bid, 0) := by
        conv_lhs => rw [cascade.eq_def]
        simp [hd]
      rw [hstop]
      exact ⟨Or.inr hd, Nat.zero_le _⟩

theorem cascade_step_home (env : Env) (fuel : Nat) (s : DenseSet) (ti : DensePtr) (b : Nat)
    (H : displacedHeadsOk env s = true) (hb : b < s.entries.length)
    (hd : (s.bucket b).isDisplaced = true) :
    cascade env (fuel + 1) s ti b =
      (fun r : DenseSet × DensePtr × Nat × Nat => (r.1, r.2.1, r.2.2.1, r.2.2.2 + 1))
        (cascade env fuel
          ((s.setBucket b DensePtr.empty).setBucket b (pushFrontPtr DensePtr.empty ti))
          (s.bucket b)
          (bucketIdOf env s.capacityLog (s.bucket b).getObject 0)) := by
  obtain ⟨hobj, _, _, _, hhome⟩ := displacedHeadsOk_spec env s b H hb hd
  rcases hh : s.bucket b with _ | ⟨o, t, d, dir⟩ | ⟨p, n, t2, d2, dir2⟩
  · rw [hh] at hd; simp [DensePtr.isDisplaced] at hd
  · rw [hh] at hd hhome
    have hdt : d = true := by simpa [DensePtr.isDisplaced] using hd
    subst hdt
    simp only [DensePtr.getDisplacedDirection, DensePtr.getObject] at hhome ⊢
    simp at hhome
    rw [hhome]
    exact cascade_succ_obj env fuel s ti b o t dir hb hh
  · rw [hh] at hobj; simp [DensePtr.isObject] at hobj

/-- **C6**: On a state whose displaced bucket heads obey the documented
discipline (each is a sole inline object whose direction is ±1 and whose true
home bucket is exactly `index − displace_dir`, in range), the displacement
cascade of `AddUnique`, run with the fuel the insert path provides
(`entries.length + 1`), always reaches its stop condition — the final target
bucket's head is empty or not displaced — and performs at most as many
iterations as there are consecutive displaced bucket heads starting at the
target bucket along the eviction direction (`evictRun`); moreover each
iteration evicts exactly the one displaced victim heading the current target
bucket, installs the held word there, and retargets that victim's true home
bucket. -/
theorem c6_cascade_termination (env : Env) (s : DenseSet) (ti : DensePtr) (bid : Nat)
    (H : displacedHeadsOk env s = true) (hb : bid < s.entries.length) :
    (((cascade env (s.entries.length + 1) s ti bid).1.bucket
        (cascade env (s.entries.length + 1) s ti bid).2.2.1).isEmpty = true ∨
      ((cascade env (s.entries.length + 1) s ti bid).1.bucket
        (cascade env (s.entries.length + 1) s ti bid).2.2.1).isDisplaced = false) ∧
    (cascade env (s.entries.length + 1) s ti bid).2.2.2 ≤ evictRun s bid ∧
    (∀ (fuel : Nat) (s2 : DenseSet) (ti2 : DensePtr) (b : Nat),
      displacedHeadsOk env s2 = true → b < s2.entries.length →
      (s2.bucket b).isDisplaced = true →
      cascade env (fuel + 1) s2 ti2 b =
        (fun r : DenseSet × DensePtr × Nat × Nat => (r.1, r.2.1, r.2.2.1, r.2.2.2 + 1))
          (cascade env fuel
            ((s2.setBucket b DensePtr.empty).setBucket b (pushFrontPtr DensePtr.empty ti2))
            (s2.bucket b)
            (bucketIdOf env s2.capacityLog (s2.bucket b).getObject 0))) := by
  have hfu : evictRun s bid < s.entries.length + 1 :=
    Nat.lt_succ_of_le (evictRun_le s bid hb)
  obtain ⟨h1, h2⟩ := cascade_run_bound env (s.entries.length + 1) s ti bid H hb hfu
  exact ⟨h1, h2, fun fuel s2 ti2 b H2 hb2 hd2 =>
    cascade_step_home env fuel s2 ti2 b H2 hb2 hd2⟩

theorem c6_witness :
    (displacedHeadsOk stubEnv8
        ⟨[DensePtr.obj 0 false false 0, DensePtr.obj 8 false true 1,
          DensePtr.empty, DensePtr.empty, DensePtr.empty, DensePtr.empty,
          DensePtr.empty, DensePtr.empty], 3, 2, 2, 0, 2, 0⟩ = true) ∧
    (1 < (⟨[DensePtr.obj 0 false false 0, DensePtr.obj 8 false true 1,
          DensePtr.empty, DensePtr.empty, DensePtr.empty, DensePtr.empty,
          DensePtr.empty, DensePtr.empty], 3, 2, 2, 0, 2, 0⟩ : DenseSet).entries.length) ∧
    (cascade stubEnv8
        ((⟨[DensePtr.obj 0 false false 0, DensePtr.obj 8 false true 1,
            DensePtr.empty, DensePtr.empty, DensePtr.empty, DensePtr.empty,
            DensePtr.empty, DensePtr.empty], 3, 2, 2, 0, 2, 0⟩ : DenseSet).entries.length + 1)
        ⟨[DensePtr.obj 0 false false 0, DensePtr.obj 8 false true 1,
          DensePtr.empty, DensePtr.empty, DensePtr.empty, DensePtr.empty,
          DensePtr.empty, DensePtr.empty], 3, 2, 2, 0, 2, 0⟩
        (DensePtr.obj 9 false false 0) 1).2.2.2 ≤
      evictRun
        ⟨[DensePtr.obj 0 false false 0, DensePtr.obj 8 false true 1,
          DensePtr.empty, DensePtr.empty, DensePtr.empty, DensePtr.empty,
          DensePtr.empty, DensePtr.empty], 3, 2, 2, 0, 2, 0⟩ 1 :=
  ⟨by decide, by decide,
    (c6_cascade_termination stubEnv8
      ⟨[DensePtr.obj 0 false false 0, DensePtr.obj 8 false true 1,
        DensePtr.empty, DensePtr.empty, DensePtr.empty, DensePtr.empty,
        DensePtr.empty, DensePtr.empty], 3, 2, 2, 0, 2, 0⟩
      (DensePtr.obj 9 false false 0) 1 (by decide) (by decide)).2.1⟩

/-! ## C2: scan coverage -/

theorem noItemBelongsBucket_pure (env : Env) (s : DenseSet) (bid : Nat)
    (h : noExpired env s = true) :
    (noItemBelongsBucket env s bid).1 = s := by
  unfold noItemBelongsBucket
  simp only [applyExpireHead_noExpired env s _ h]
  split_ifs <;> rfl

theorem isEmpty_false_of_isDisplaced (c : DensePtr) (h : c.isDisplaced = true) :
    c.isEmpty = false := by
  cases c <;> simp_all [DensePtr.isEmpty, DensePtr.isDisplaced]

theorem isEmpty_false_of_mem_chainObjs (c : DensePtr) (o : Obj)
    (h : o ∈ c.chainObjs) : c.isEmpty = false := by
  cases c <;> simp_all [DensePtr.isEmpty, DensePtr.chainObjs]

theorem getObject_mem_chainObjs (c : DensePtr) (h : c.isEmpty = false) :
    c.getObject ∈ c.chainObjs := by
  cases c <;> simp_all [DensePtr.isEmpty, DensePtr.chainObjs, DensePtr.getObject]

theorem noItemBelongsBucket_false_of_owner (env : Env) (s : DenseSet) (bid : Nat)
    (h : noExpired env s = true)
    (hne : (s.bucket bid).isEmpty = false) (hnd : (s.bucket bid).isDisplaced = false) :
    (noItemBelongsBucket env s bid).2 = false := by
  unfold noItemBelongsBucket
  simp only [applyExpireHead_noExpired env s _ h]
  simp [hne, hnd]

theorem noItemBelongsBucket_false_of_right (env : Env) (s : DenseSet) (bid : Nat)
    (h : noExpired env s = true) (hlt : bid + 1 < s.entries.length)
    (hd : (s.bucket (bid + 1)).isDisplaced = true)
    (hdir : (s.bucket (bid + 1)).getDisplacedDirection = 1) :
    (noItemBelongsBucket env s bid).2 = false := by
  unfold noItemBelongsBucket
  simp only [applyExpireHead_noExpired env s _ h]
  have hne : (s.bucket (bid + 1)).isEmpty = false := isEmpty_false_of_isDisplaced _ hd
  by_cases h1 : !(s.bucket bid).isEmpty && !(s.bucket bid).isDisplaced
  · rw [if_pos h1]
  · rw [if_neg h1, if_pos hlt, if_pos (by simp [hne, hd, hdir])]

theorem noItemBelongsBucket_false_of_left (env : Env) (s : DenseSet) (bid : Nat)
    (h : noExpired env s = true) (hpos : 0 < bid)
    (hd : (s.bucket (bid - 1)).isDisplaced = true)
    (hdir : (s.bucket (bid - 1)).getDisplacedDirection = -1) :
    (noItemBelongsBucket env s bid).2 = false := by
  unfold noItemBelongsBucket
  simp only [applyExpireHead_noExpired env s _ h]
  have hne : (s.bucket (bid - 1)).isEmpty = false := isEmpty_false_of_isDisplaced _ hd
  by_cases h1 : !(s.bucket bid).isEmpty && !(s.bucket bid).isDisplaced
  · rw [if_pos h1]
  · rw [if_neg h1]
    by_cases h2 : bid + 1 < s.entries.length
    · rw [if_pos h2]
      by_cases h3 : !(s.bucket (bid + 1)).isEmpty && (s.bucket (bid + 1)).isDisplaced &&
          decide ((s.bucket (bid + 1)).getDisplacedDirection = 1)
      · rw [if_pos h3]
      · rw [if_neg h3]
        simp only [hpos, if_pos]
        rw [if_pos (by simp [hne, hd, hdir])]
    · rw [if_neg h2]
      simp only [hpos, if_pos]
      rw [if_pos (by simp [hne, hd, hdir])]

theorem scanSkipF_spec (env : Env) (s : DenseSet) (h : noExpired env s = true) :
    ∀ (fuel idx : Nat), idx ≤ s.entries.length → s.entries.length - idx < fuel →
      (scanSkipF env fuel s idx).1 = s ∧
      idx ≤ (scanSkipF env fuel s idx).2 ∧
      (scanSkipF env fuel s idx).2 ≤ s.entries.length ∧
      (∀ k, idx ≤ k → k < (scanSkipF env fuel s idx).2 →
        (noItemBelongsBucket env s k).2 = true) ∧
      ((scanSkipF env fuel s idx).2 = s.entries.length ∨
        ((scanSkipF env fuel s idx).2 < s.entries.length ∧
         (noItemBelongsBucket env s (scanSkipF env fuel s idx).2).2 = false)) := by
  intro fuel
  induction fuel with
  | zero => intro idx hle hlt; omega
  | succ fuel ih =>
    intro idx hle hlt
    by_cases hidx : idx < s.entries.length
    · have hpure : (noItemBelongsBucket env s idx).1 = s :=
        noItemBelongsBucket_pure env s idx h
      by_cases hb : (noItemBelongsBucket env s idx).2 = true
      · have hstep : scanSkipF env (fuel + 1) s idx =
            scanSkipF env fuel s (idx + 1) := by
          unfold scanSkipF
          rw [if_pos hidx, if_pos hb, hpure]
          conv_lhs => rw [scanSkipF.eq_def]
        rw [hstep]
        obtain ⟨h1, h2, h3, h4, h5⟩ := ih (idx + 1) (by omega) (by omega)
        refine ⟨h1, by omega, h3, ?_, h5⟩
        intro k hk1 hk2
        rcases Nat.eq_or_lt_of_le hk1 with rfl | hk1'
        · exact hb
        · exact h4 k (by omega) hk2
      · have hb' : (noItemBelongsBucket env s idx).2 = false := by
          revert hb; cases (noItemBelongsBucket env s idx).2 <;> simp
        have hstep : scanSkipF env (fuel + 1) s idx =
            ((noItemBelongsBucket env s idx).1, idx) := by
          unfold scanSkipF
          rw [if_pos hidx, if_neg hb]
        rw [hstep, hpure]
        dsimp only
        exact ⟨rfl, le_refl _, by omega, fun k hk1 hk2 => absurd (lt_of_le_of_lt hk1 hk2)
          (lt_irrefl idx), Or.inr ⟨hidx, hb'⟩⟩
    · have hstep : scanSkipF env (fuel + 1) s idx = (s, idx) := by
        unfold scanSkipF
        rw [if_neg hidx]
      rw [hstep]
      dsimp only
      have : idx = s.entries.length := by omega
      exact ⟨rfl, le_refl _, by omega, fun k hk1 hk2 => absurd (lt_of_le_of_lt hk1 hk2)
        (lt_irrefl idx), Or.inl this⟩

theorem scanChainF_noExpired (env : Env) (tn : Nat) :
    ∀ (fuel : Nat) (c : DensePtr), chainNoExpired env tn c = true →
      c.chainLen < fuel →
      scanChainF env tn fuel c = (c, c.chainObjs, [], 0) := by
  intro fuel
  induction fuel with
  | zero => intro c _ hlt; omega
  | succ fuel ih =>
    intro c hc hlen
    cases c with
    | empty => simp [scanChainF, DensePtr.chainObjs]
    | obj o t d dir => simp [scanChainF, DensePtr.chainObjs]
    | link p n t d dir =>
      simp only [chainNoExpired, Bool.and_eq_true] at hc
      have hrec := ih n hc.2 (by
        simp only [DensePtr.chainLen, DensePtr.chainObjs, List.length_cons] at hlen ⊢
        omega)
      simp only [scanChainF, expireIfNeeded_noExpired env tn n hc.2, hrec]
      simp [DensePtr.chainObjs]

theorem scanChain_noExpired (env : Env) (tn : Nat) (c : DensePtr)
    (hc : chainNoExpired env tn c = true) :
    scanChain env tn c = (c, c.chainObjs, [], 0) :=
  scanChainF_noExpired env tn (c.chainLen + 1) c hc (by omega)

theorem shiftRight_lt_pow (c caplog : Nat) (hcap : caplog ≤ 32) :
    (c % 2 ^ 32) >>> (32 - caplog) < 2 ^ caplog := by
  rw [Nat.shiftRight_eq_div_pow]
  have h1 : c % 2 ^ 32 < 2 ^ 32 := Nat.mod_lt _ (by norm_num)
  have h2 : (2 : Nat) ^ 32 = 2 ^ (32 - caplog) * 2 ^ caplog := by
    rw [← pow_add]
    congr 1
    omega
  apply Nat.div_lt_of_lt_mul
  omega

theorem cursor_roundtrip (caplog i : Nat) (hcap : caplog ≤ 32)
    (hi : i < 2 ^ caplog) (hi0 : 0 < i) :
    ((i <<< (32 - caplog)) % 2 ^ 32) >>> (32 - caplog) = i ∧
    (i <<< (32 - caplog)) % 2 ^ 32 ≠ 0 := by
  have h1 : i <<< (32 - caplog) = i * 2 ^ (32 - caplog) := Nat.shiftLeft_eq i _
  have hp : (0 : Nat) < 2 ^ (32 - caplog) := Nat.pos_pow_of_pos _ (by norm_num)
  have h2 : i * 2 ^ (32 - caplog) < 2 ^ 32 := by
    have he : (2 : Nat) ^ 32 = 2 ^ caplog * 2 ^ (32 - caplog) := by
      rw [← pow_add]
      congr 1
      omega
    rw [he]
    exact Nat.mul_lt_mul_of_lt_of_le hi (le_refl _) hp
  constructor
  · rw [h1, Nat.mod_eq_of_lt h2, Nat.shiftRight_eq_div_pow,
      Nat.mul_div_cancel _ hp]
  · rw [h1, Nat.mod_eq_of_lt h2]
    have := Nat.mul_pos hi0 hp
    omega

theorem mem_objectsOf_of_mem_bucket (s : DenseSet) (b : Nat) (o : Obj)
    (hb : b < s.entries.length) (h : o ∈ (s.bucket b).chainObjs) :
    o ∈ objectsOf s := by
  unfold objectsOf
  rw [List.mem_flatten]
  refine ⟨(s.bucket b).chainObjs, ?_, h⟩
  rw [List.mem_map]
  refine ⟨s.bucket b, ?_, rfl⟩
  rcases bucket_mem_or_empty s b with hm | he
  · exact hm
  · rw [he] at h
    simp [DensePtr.chainObjs] at h

theorem mem_bucket_of_mem_objectsOf (s : DenseSet) (o : Obj)
    (h : o ∈ objectsOf s) :
    ∃ b, b < s.entries.length ∧ o ∈ (s.bucket b).chainObjs := by
  unfold objectsOf at h
  rw [List.mem_flatten] at h
  obtain ⟨l, hl, hol⟩ := h
  rw [List.mem_map] at hl
  obtain ⟨c, hc, rfl⟩ := hl
  obtain ⟨b, hb, hcb⟩ := List.getElem_of_mem hc
  refine ⟨b, hb, ?_⟩
  have hbc : s.bucket b = c := by
    unfold DenseSet.bucket
    simp [List.getD, List.getElem?_eq_getElem hb, hcb]
  rw [hbc]
  exact hol

theorem scanEmit_subset (env : Env) (s : DenseSet) (j : Nat)
    (hj : j < s.entries.length) :
    ∀ o ∈ scanEmit env s j, o ∈ objectsOf s := by
  intro o ho
  unfold scanEmit at ho
  rw [List.mem_append, List.mem_append] at ho
  rcases ho with h1 | h2 | h3
  · split_ifs at h1 with hcond
    · exact mem_objectsOf_of_mem_bucket s j o hj h1
    · simp at h1
  · split_ifs at h2 with hj0 hcond
    · rw [List.mem_singleton] at h2
      subst h2
      apply mem_objectsOf_of_mem_bucket s (j - 1) _ (by omega)
      exact getObject_mem_chainObjs _ (isEmpty_false_of_isDisplaced _
        (by rw [Bool.and_eq_true] at hcond; exact hcond.1))
    · simp at h2
    · simp at h2
  · split_ifs at h3 with hj1 hcond
    · rw [List.mem_singleton] at h3
      subst h3
      apply mem_objectsOf_of_mem_bucket s (j + 1) _ hj1
      exact getObject_mem_chainObjs _ (isEmpty_false_of_isDisplaced _
        (by rw [Bool.and_eq_true] at hcond; exact hcond.1))
    · simp at h3
    · simp at h3

theorem owner_mem_scanEmit (env : Env) (s : DenseSet) (j : Nat) (o : Obj)
    (hnd : (s.bucket j).isDisplaced = false) (ho : o ∈ (s.bucket j).chainObjs) :
    o ∈ scanEmit env s j := by
  unfold scanEmit
  rw [List.mem_append]
  left
  rw [if_pos (by simp [isEmpty_false_of_mem_chainObjs _ _ ho, hnd])]
  exact ho

theorem left_mem_scanEmit (env : Env) (s : DenseSet) (j : Nat)
    (hpos : 0 < j)
    (hd : (s.bucket (j - 1)).isDisplaced = true)
    (hdir : (s.bucket (j - 1)).getDisplacedDirection = -1) :
    (s.bucket (j - 1)).getObject ∈ scanEmit env s j := by
  unfold scanEmit
  rw [List.mem_append, List.mem_append]
  right
  left
  rw [if_pos hpos, if_pos (by simp [hd, hdir])]
  exact List.mem_singleton_self _

theorem right_mem_scanEmit (env : Env) (s : DenseSet) (j : Nat)
    (hlt : j + 1 < s.entries.length)
    (hd : (s.bucket (j + 1)).isDisplaced = true)
    (hdir : (s.bucket (j + 1)).getDisplacedDirection = 1) :
    (s.bucket (j + 1)).getObject ∈ scanEmit env s j := by
  unfold scanEmit
  rw [List.mem_append, List.mem_append]
  right
  right
  rw [if_pos hlt, if_pos (by simp [hd, hdir])]
  exact List.mem_singleton_self _

theorem entries_set_bucket (s : DenseSet) (b : Nat) :
    s.entries.set b (s.bucket b) = s.entries :=
  list_set_getD s.entries b DensePtr.empty

theorem denseSet_eta (s : DenseSet) :
    ({ entries := s.entries, capacityLog := s.capacityLog, size := s.size,
       numUsedBuckets := s.numUsedBuckets, numChainEntries := s.numChainEntries,
       objMallocUsed := s.objMallocUsed, timeNow := s.timeNow } : DenseSet) = s := rfl

theorem scan_step (env : Env) (s : DenseSet) (c i : Nat)
    (hne : noExpired env s = true)
    (hcap0 : ¬s.capacityLog = 0)
    (hdec : (c % 2 ^ 32) >>> (32 - s.capacityLog) = i)
    (hile : i ≤ s.entries.length) :
    ∃ j, i ≤ j ∧ j ≤ s.entries.length ∧
      (∀ k, i ≤ k → k < j → (noItemBelongsBucket env s k).2 = true) ∧
      (j = s.entries.length → scan env s c = (s, [], 0)) ∧
      (j < s.entries.length →
        (noItemBelongsBucket env s j).2 = false ∧
        scan env s c =
          (s, scanEmit env s j,
            if j + 1 = s.entries.length then 0
            else ((j + 1) <<< (32 - s.capacityLog)) % 2 ^ 32)) := by
  obtain ⟨hp1, hp2, hp3, hp4, hp5⟩ :=
    scanSkipF_spec env s hne (s.entries.length + 1) i hile (by omega)
  have hskip : scanSkip env s i =
      (s, (scanSkipF env (s.entries.length + 1) s i).2) := by
    unfold scanSkip
    exact Prod.ext hp1 rfl
  refine ⟨(scanSkipF env (s.entries.length + 1) s i).2, hp2, hp3, hp4, ?_, ?_⟩
  · intro hjlen
    unfold scan
    rw [if_neg hcap0]
    dsimp only
    rw [hdec, hskip]
    dsimp only
    rw [if_pos hjlen]
  · intro hjlt
    have hnib : (noItemBelongsBucket env s
        (scanSkipF env (s.entries.length + 1) s i).2).2 = false := by
      rcases hp5 with h | h
      · omega
      · exact h.2
    refine ⟨hnib, ?_⟩
    set J := (scanSkipF env (s.entries.length + 1) s i).2 with hJ
    unfold scan
    rw [if_neg hcap0]
    dsimp only
    rw [hdec, hskip]
    dsimp only
    rw [if_neg (by omega : ¬J = s.entries.length)]
    rw [scanChain_noExpired env s.timeNow _ (bucket_chainNoExpired env s J hne)]
    dsimp only
    simp only [entries_set_bucket, List.length_nil, Nat.cast_zero, sub_zero,
      List.map_nil, List.sum_nil, add_zero, denseSet_eta]
    simp only [apply_ite Prod.fst, apply_ite Prod.snd, ite_self]
    simp only [applyExpireHead_noExpired env s _ hne]
    simp only [apply_ite Prod.fst, apply_ite Prod.snd, ite_self]
    simp only [applyExpireHead_noExpired env s _ hne]
    unfold scanEmit
    by_cases hend : J + 1 = s.entries.length
    · rw [if_pos (by omega : J + 1 ≥ s.entries.length), if_pos hend,
        if_neg (by omega : ¬J + 1 < s.entries.length)]
      simp
    · rw [if_neg (by omega : ¬J + 1 ≥ s.entries.length), if_neg hend,
        if_pos (by omega : J + 1 < s.entries.length)]
      simp [List.append_assoc]

theorem scanLoopF_cover (env : Env) (s : DenseSet)
    (hne : noExpired env s = true)
    (hcap : s.capacityLog ≤ 32) (hcap0 : ¬s.capacityLog = 0)
    (hlen : s.entries.length = 2 ^ s.capacityLog) :
    ∀ (fuel c i : Nat), (c % 2 ^ 32) >>> (32 - s.capacityLog) = i →
      s.entries.length - i < fuel →
      (scanLoopF env fuel s c).1 = s ∧
      (∀ o ∈ (scanLoopF env fuel s c).2, o ∈ objectsOf s) ∧
      (∀ b, i ≤ b → b < s.entries.length → (s.bucket b).isDisplaced = false →
        ∀ o ∈ (s.bucket b).chainObjs, o ∈ (scanLoopF env fuel s c).2) ∧
      (∀ b, i + 1 ≤ b → b < s.entries.length → (s.bucket b).isDisplaced = true →
        (s.bucket b).getDisplacedDirection = 1 →
        (s.bucket b).getObject ∈ (scanLoopF env fuel s c).2) ∧
      (∀ b, i ≤ b + 1 → b + 1 < s.entries.length → (s.bucket b).isDisplaced = true →
        (s.bucket b).getDisplacedDirection = -1 →
        (s.bucket b).getObject ∈ (scanLoopF env fuel s c).2) := by
  intro fuel
  induction fuel with
  | zero => intro c i hdec hfu; omega
  | succ fuel ih =>
    intro c i hdec hfu
    have hilt : i < s.entries.length := by
      rw [← hdec, hlen]
      exact shiftRight_lt_pow c _ hcap
    obtain ⟨j, hij, hjle, hskipped, heqlen, heqlt⟩ :=
      scan_step env s c i hne hcap0 hdec (le_of_lt hilt)
    have hnotowner : ∀ b, i ≤ b → b < j → ∀ o, o ∈ (s.bucket b).chainObjs →
        (s.bucket b).isDisplaced = false → False := by
      intro b hb1 hb2 o ho hnd
      have hfalse := noItemBelongsBucket_false_of_owner env s b hne
        (isEmpty_false_of_mem_chainObjs _ _ ho) hnd
      rw [hskipped b hb1 hb2] at hfalse
      cases hfalse
    have hnotright : ∀ b, 1 ≤ b → b < s.entries.length → b - 1 ≥ i → b - 1 < j →
        (s.bucket b).isDisplaced = true →
        (s.bucket b).getDisplacedDirection = 1 → False := by
      intro b hb0 hblt hb1 hb2 hd hdir
      have hadd : b - 1 + 1 = b := by omega
      have hfalse := noItemBelongsBucket_false_of_right env s (b - 1) hne
        (by omega) (by rw [hadd]; exact hd) (by rw [hadd]; exact hdir)
      rw [hskipped (b - 1) hb1 hb2] at hfalse
      cases hfalse
    have hnotleft : ∀ b, i ≤ b + 1 → b + 1 < s.entries.length → b + 1 < j →
        (s.bucket b).isDisplaced = true →
        (s.bucket b).getDisplacedDirection = -1 → False := by
      intro b hb1 hblt hb2 hd hdir
      have hfalse := noItemBelongsBucket_false_of_left env s (b + 1) hne (by omega)
        (by simpa using hd) (by simpa using hdir)
      rw [hskipped (b + 1) hb1 hb2] at hfalse
      cases hfalse
    by_cases hjlen : j = s.entries.length
    · have heq := heqlen hjlen
      have hloop : scanLoopF env (fuel + 1) s c = (s, []) := by
        unfold scanLoopF
        rw [heq]
        rfl
      rw [hloop]
      dsimp only
      refine ⟨rfl, by simp, ?_, ?_, ?_⟩
      · intro b hb1 hb2 hnd o ho
        exact (hnotowner b hb1 (by omega) o ho hnd).elim
      · intro b hb1 hb2 hd hdir
        exact (hnotright b (by omega) hb2 (by omega) (by omega) hd hdir).elim
      · intro b hb1 hb2 hd hdir
        exact (hnotleft b hb1 hb2 (by omega) hd hdir).elim
    · have hjlt : j < s.entries.length := by omega
      obtain ⟨hnib, heq⟩ := heqlt hjlt
      by_cases hend : j + 1 = s.entries.length
      · have heq' : scan env s c = (s, scanEmit env s j, 0) := by
          rw [heq, if_pos hend]
        have hloop : scanLoopF env (fuel + 1) s c = (s, scanEmit env s j) := by
          unfold scanLoopF
          rw [heq']
          rfl
        rw [hloop]
        dsimp only
        refine ⟨rfl, fun o ho => scanEmit_subset env s j hjlt o ho, ?_, ?_, ?_⟩
        · intro b hb1 hb2 hnd o ho
          rcases Nat.lt_or_ge b j with hbj | hbj
          · exact (hnotowner b hb1 hbj o ho hnd).elim
          · have hbe : b = j := by omega
            subst hbe
            exact owner_mem_scanEmit env s b o hnd ho
        · intro b hb1 hb2 hd hdir
          exact (hnotright b (by omega) hb2 (by omega) (by omega) hd hdir).elim
        · intro b hb1 hb2 hd hdir
          rcases Nat.lt_or_ge (b + 1) j with hbj | hbj
          · exact (hnotleft b hb1 hb2 hbj hd hdir).elim
          · have hbe : j = b + 1 := by omega
            subst hbe
            have hm := left_mem_scanEmit env s (b + 1) (by omega)
              (by simpa using hd) (by simpa using hdir)
            simpa using hm
      · have hj2 : j + 1 < 2 ^ s.capacityLog := by
          rw [← hlen]
          omega
        have hcnz : ((j + 1) <<< (32 - s.capacityLog)) % 2 ^ 32 ≠ 0 :=
          (cursor_roundtrip s.capacityLog (j + 1) hcap hj2 (by omega)).2
        have hdec' : ((((j + 1) <<< (32 - s.capacityLog)) % 2 ^ 32) % 2 ^ 32) >>>
            (32 - s.capacityLog) = j + 1 := by
          rw [Nat.mod_mod_of_dvd _ dvd_rfl]
          exact (cursor_roundtrip s.capacityLog (j + 1) hcap hj2 (by omega)).1
        have heq' : scan env s c =
            (s, scanEmit env s j, ((j + 1) <<< (32 - s.capacityLog)) % 2 ^ 32) := by
          rw [heq, if_neg hend]
        obtain ⟨ih1, ih2, ih3, ih4, ih5⟩ :=
          ih (((j + 1) <<< (32 - s.capacityLog)) % 2 ^ 32) (j + 1) hdec' (by omega)
        have hloop : scanLoopF env (fuel + 1) s c =
            ((scanLoopF env fuel s (((j + 1) <<< (32 - s.capacityLog)) % 2 ^ 32)).1,
             scanEmit env s j ++
               (scanLoopF env fuel s (((j + 1) <<< (32 - s.capacityLog)) % 2 ^ 32)).2) := by
          conv_lhs => rw [scanLoopF.eq_def]
          dsimp only
          rw [heq']
          dsimp only
          rw [if_neg hcnz]
        rw [hloop]
        dsimp only
        refine ⟨ih1, ?_, ?_, ?_, ?_⟩
        · intro o ho
          rcases List.mem_append.mp ho with h | h
          · exact scanEmit_subset env s j hjlt o h
          · exact ih2 o h
        · intro b hb1 hb2 hnd o ho
          rcases Nat.lt_or_ge b j with hbj | hbj
          · exact (hnotowner b hb1 hbj o ho hnd).elim
          · rcases Nat.eq_or_lt_of_le hbj with hbe | hbj'
            · subst hbe
              exact List.mem_append.mpr (Or.inl (owner_mem_scanEmit env s j o hnd ho))
            · exact List.mem_append.mpr (Or.inr (ih3 b (by omega) hb2 hnd o ho))
        · intro b hb1 hb2 hd hdir
          rcases Nat.lt_or_ge (b - 1) j with hbj | hbj
          · exact (hnotright b (by omega) hb2 (by omega) hbj hd hdir).elim
          · rcases Nat.eq_or_lt_of_le hbj with hbe | hbj'
            · have hbe' : b = j + 1 := by omega
              subst hbe'
              exact List.mem_append.mpr (Or.inl (right_mem_scanEmit env s j
                (by omega) hd hdir))
            · exact List.mem_append.mpr (Or.inr (ih4 b (by omega) hb2 hd hdir))
        · intro b hb1 hb2 hd hdir
          rcases Nat.lt_or_ge (b + 1) j with hbj | hbj
          · exact (hnotleft b hb1 hb2 hbj hd hdir).elim
          · rcases Nat.eq_or_lt_of_le hbj with hbe | hbj'
            · have hbe' : j = b + 1 := by omega
              subst hbe'
              have hm := left_mem_scanEmit env s (b + 1) (by omega)
                (by simpa using hd) (by simpa using hdir)
              exact List.mem_append.mpr (Or.inl (by simpa using hm))
            · exact List.mem_append.mpr (Or.inr (ih5 b (by omega) hb2 hd hdir))

/-- **C2**: On a set state with no expired entries whose displaced bucket
heads obey the documented discipline (sole inline objects, direction ±1, true
home = index − direction, in range) and whose bucket vector is the power of
two its `capacity_log ≤ 32` dictates, the scan protocol — start at cursor 0,
repeatedly call `Scan` with the cursor it returns, stop when it returns 0,
with no mutation in between — hands the callback only stored objects, and
hands it every stored object at least once. -/
theorem c2_scan_coverage (env : Env) (s : DenseSet)
    (hne : noExpired env s = true) (H : displacedHeadsOk env s = true)
    (hcap : s.capacityLog ≤ 32)
    (hlen : s.entries.length = if s.capacityLog = 0 then 0 else 2 ^ s.capacityLog) :
    (∀ o ∈ (scanAll env s).2, o ∈ objectsOf s) ∧
    (∀ o ∈ objectsOf s, o ∈ (scanAll env s).2) := by
  by_cases hc0 : s.capacityLog = 0
  · have hl0 : s.entries.length = 0 := by rw [hlen, if_pos hc0]
    have hobj : objectsOf s = [] := by
      unfold objectsOf
      rw [List.length_eq_zero.mp hl0]
      rfl
    have hsa : (scanAll env s).2 = [] := by
      unfold scanAll scanLoopF scan
      rw [if_pos hc0]
      rfl
    rw [hsa, hobj]
    exact ⟨fun o ho => absurd ho (List.not_mem_nil o),
           fun o ho => absurd ho (List.not_mem_nil o)⟩
  · have hlen' : s.entries.length = 2 ^ s.capacityLog := by rw [hlen, if_neg hc0]
    obtain ⟨h1, h2, h3, h4, h5⟩ := scanLoopF_cover env s hne hcap hc0 hlen'
      (s.entries.length + 1) 0 0 (by simp) (by omega)
    refine ⟨h2, ?_⟩
    intro o ho
    obtain ⟨b, hb, hob⟩ := mem_bucket_of_mem_objectsOf s o ho
    by_cases hd : (s.bucket b).isDisplaced = true
    · obtain ⟨hobj2, hdirpm, hge, hlt2, hhome⟩ := displacedHeadsOk_spec env s b H hb hd
      have hone : (s.bucket b).chainObjs = [(s.bucket b).getObject] := by
        rcases hcb : s.bucket b with _ | ⟨o2, t2, d2, dir2⟩ | ⟨p2, n2, t2, d2, dir2⟩
        · rw [hcb] at hd
          simp [DensePtr.isDisplaced] at hd
        · simp [DensePtr.chainObjs, DensePtr.getObject]
        · rw [hcb] at hobj2
          simp [DensePtr.isObject] at hobj2
      have hoe : o = (s.bucket b).getObject := by
        rw [hone] at hob
        simpa using hob
      rcases hdirpm with hdir1 | hdirm
      · have hb1 : 1 ≤ b := by
          rw [hdir1] at hge
          omega
        rw [hoe]
        exact h4 b (by omega) hb hd hdir1
      · have hblt : b + 1 < s.entries.length := by
          rw [hdirm] at hlt2
          omega
        rw [hoe]
        exact h5 b (by omega) hblt hd hdirm
    · have hd' : (s.bucket b).isDisplaced = false := by
        revert hd
        cases (s.bucket b).isDisplaced <;> simp
      exact h3 b (by omega) hb hd' o hob

theorem c2_witness :
    (noExpired stubEnv8
        ⟨[DensePtr.obj 0 false false 0, DensePtr.obj 8 false true 1,
          DensePtr.empty, DensePtr.empty, DensePtr.empty, DensePtr.empty,
          DensePtr.empty, DensePtr.empty], 3, 2, 2, 0, 2, 0⟩ = true) ∧
    (displacedHeadsOk stubEnv8
        ⟨[DensePtr.obj 0 false false 0, DensePtr.obj 8 false true 1,
          DensePtr.empty, DensePtr.empty, DensePtr.empty, DensePtr.empty,
          DensePtr.empty, DensePtr.empty], 3, 2, 2, 0, 2, 0⟩ = true) ∧
    ((∀ o ∈ (scanAll stubEnv8
        ⟨[DensePtr.obj 0 false false 0, DensePtr.obj 8 false true 1,
          DensePtr.empty, DensePtr.empty, DensePtr.empty, DensePtr.empty,
          DensePtr.empty, DensePtr.empty], 3, 2, 2, 0, 2, 0⟩).2,
        o ∈ objectsOf
        ⟨[DensePtr.obj 0 false false 0, DensePtr.obj 8 false true 1,
          DensePtr.empty, DensePtr.empty, DensePtr.empty, DensePtr.empty,
          DensePtr.empty, DensePtr.empty], 3, 2, 2, 0, 2, 0⟩) ∧
     (∀ o ∈ objectsOf
        (⟨[DensePtr.obj 0 false false 0, DensePtr.obj 8 false true 1,
          DensePtr.empty, DensePtr.empty, DensePtr.empty, DensePtr.empty,
          DensePtr.empty, DensePtr.empty], 3, 2, 2, 0, 2, 0⟩ : DenseSet),
        o ∈ (scanAll stubEnv8
        ⟨[DensePtr.obj 0 false false 0, DensePtr.obj 8 false true 1,
          DensePtr.empty, DensePtr.empty, DensePtr.empty, DensePtr.empty,
          DensePtr.empty, DensePtr.empty], 3, 2, 2, 0, 2, 0⟩).2)) :=
  ⟨by decide, by decide,
    c2_scan_coverage stubEnv8
      ⟨[DensePtr.obj 0 false false 0, DensePtr.obj 8 false true 1,
        DensePtr.empty, DensePtr.empty, DensePtr.empty, DensePtr.empty,
        DensePtr.empty, DensePtr.empty], 3, 2, 2, 0, 2, 0⟩
      (by decide) (by decide) (by decide) (by decide)⟩

/-! ## C1: placement of objects relative to their home bucket -/

theorem c1_counterexample :
    (let t0 := reserveOp stubEnv8 (DenseSet.init 0) 8
     let t1 := (addOrFindDense stubEnv8 t0 0 false).1
     let t2 := (addOrFindDense stubEnv8 t1 8 false).1
     let t3 := (addOrReplaceObj stubEnv8 t2 8 false).1
     bucketIdOf stubEnv8 t3.capacityLog 8 0 = 0 ∧
     (t2.bucket 1).getObject = 8 ∧ (t2.bucket 1).isDisplaced = true ∧
     (t3.bucket 1).getObject = 8 ∧ (t3.bucket 1).isDisplaced = false ∧
     (t3.bucket 0).chainObjs = [0] ∧ (t3.bucket 1).chainObjs = [8]) := by
  decide

theorem findEmptyAround_some (env : Env) (s : DenseSet) (bid idx : Nat)
    (h : (findEmptyAround env s bid).2 = some idx) :
    ((findEmptyAround env s bid).1.bucket idx).isEmpty = true ∧
    (idx = bid ∨ (idx = bid + 1 ∧ bid + 1 < s.entries.length) ∨
      (idx = bid - 1 ∧ 0 < bid)) := by
  unfold findEmptyAround at h ⊢
  dsimp only at h ⊢
  by_cases h0 : ((applyExpireHead env s bid).bucket bid).isEmpty = true
  · rw [if_pos h0] at h ⊢
    simp only [Option.some.injEq] at h
    subst h
    exact ⟨h0, Or.inl rfl⟩
  · rw [if_neg h0] at h ⊢
    have hlen0 : (applyExpireHead env s bid).entries.length = s.entries.length :=
      length_applyExpireHead env s bid
    by_cases h1 : bid + 1 < (applyExpireHead env s bid).entries.length
    · rw [if_pos h1] at h ⊢
      by_cases h2 : ((applyExpireHead env (applyExpireHead env s bid) (bid + 1)).bucket
          (bid + 1)).isEmpty = true
      · rw [if_pos h2] at h ⊢
        simp only [Option.some.injEq] at h
        subst h
        exact ⟨h2, Or.inr (Or.inl ⟨rfl, by omega⟩)⟩
      · rw [if_neg h2] at h ⊢
        by_cases h3 : bid > 0
        · rw [if_pos h3] at h ⊢
          by_cases h4 : ((applyExpireHead env
              (applyExpireHead env (applyExpireHead env s bid) (bid + 1)) (bid - 1)).bucket
              (bid - 1)).isEmpty = true
          · rw [if_pos h4] at h ⊢
            simp only [Option.some.injEq] at h
            subst h
            exact ⟨h4, Or.inr (Or.inr ⟨rfl, h3⟩)⟩
          · rw [if_neg h4] at h
            simp at h
        · rw [if_neg h3] at h
          simp at h
    · rw [if_neg h1] at h ⊢
      by_cases h3 : bid > 0
      · rw [if_pos h3] at h ⊢
        by_cases h4 : ((applyExpireHead env (applyExpireHead env s bid) (bid - 1)).bucket
            (bid - 1)).isEmpty = true
        · rw [if_pos h4] at h ⊢
          simp only [Option.some.injEq] at h
          subst h
          exact ⟨h4, Or.inr (Or.inr ⟨rfl, h3⟩)⟩
        · rw [if_neg h4] at h
          simp at h
      · rw [if_neg h3] at h
        simp at h

theorem flatPlace_spec (env : Env) (s : DenseSet) (idx bid : Nat) (o : Obj) (ttl : Bool)
    (hidx : idx < s.entries.length) (hemp : (s.bucket idx).isEmpty = true) :
    ((flatPlace env s idx bid o ttl).bucket idx).chainObjs = [o] ∧
    (idx = bid → ((flatPlace env s idx bid o ttl).bucket idx).isDisplaced = false) ∧
    (idx ≠ bid → ((flatPlace env s idx bid o ttl).bucket idx).isDisplaced = true ∧
      ((flatPlace env s idx bid o ttl).bucket idx).getDisplacedDirection =
        (idx : Int) - (bid : Int)) ∧
    (∀ j, j ≠ idx → (flatPlace env s idx bid o ttl).bucket j = s.bucket j) := by
  have hemp2 : (s.entries[idx]).isEmpty = true := by
    have hb : s.bucket idx = s.entries[idx] := by
      simp [DenseSet.bucket, List.getD, List.getElem?_eq_getElem hidx]
    rw [← hb]
    exact hemp
  by_cases hib : idx = bid
  · subst hib
    have hres : (flatPlace env s idx idx o ttl).bucket idx =
        (if ttl then DensePtr.obj o true false 0 else DensePtr.obj o false false 0) := by
      cases ttl <;>
        simp [flatPlace, pushFrontData, hemp2, DensePtr.setObject, DensePtr.setTtl,
          DenseSet.bucket, List.getD, List.getElem?_set, hidx]
    refine ⟨?_, fun _ => ?_, fun hne => absurd rfl hne, ?_⟩
    · rw [hres]; cases ttl <;> rfl
    · rw [hres]; cases ttl <;> rfl
    · intro j hj
      have hji : ¬idx = j := fun hcc => hj hcc.symm
      simp [flatPlace, DenseSet.bucket, List.getD, List.getElem?_set, hji]
  · have hres : (flatPlace env s idx bid o ttl).bucket idx =
        DensePtr.obj o ttl true ((idx : Int) - (bid : Int)) := by
      cases ttl <;>
        simp [flatPlace, pushFrontData, hemp2, hib, DensePtr.setObject, DensePtr.setTtl,
          DensePtr.setDisplaced, DenseSet.bucket, List.getD, List.getElem?_set, hidx]
    refine ⟨?_, fun heq => absurd heq hib, fun _ => ?_, ?_⟩
    · rw [hres]; rfl
    · rw [hres]
      exact ⟨rfl, by simp [DensePtr.getDisplacedDirection]⟩
    · intro j hj
      have hji : ¬idx = j := fun hcc => hj hcc.symm
      simp [flatPlace, DenseSet.bucket, List.getD, List.getElem?_set, hji]

/-- **C1 (amended)**: the placement discipline the insert path establishes,
and the flag-to-residency direction that survives: (i) a flat insert settles
on an empty slot that is the home bucket or an in-range neighbor; (ii) the
flat placement stores the object there as a sole inline entry and sets the
displaced flag, with `displace_dir` equal to the exact offset, precisely when
a neighbor slot was used; (iii) on a state whose displaced heads obey the
documented discipline, every displaced head's object resides at exactly its
home bucket plus its `displace_dir` (∈ {−1, +1}); (iv) each displacement
cascade iteration installs the held word at the current target bucket and
retargets the evicted victim's true home.  The claim's converse direction —
an object residing at home ± 1 always sits in a displaced-marked slot — does
not survive `add_or_replace`, which rewrites a found inline slot with
`SetObject` and thereby clears its flag bits (`c1_counterexample`). -/
theorem c1_amended (env : Env) :
    (∀ (s : DenseSet) (bid idx : Nat), (findEmptyAround env s bid).2 = some idx →
      ((findEmptyAround env s bid).1.bucket idx).isEmpty = true ∧
      (idx = bid ∨ (idx = bid + 1 ∧ bid + 1 < s.entries.length) ∨
        (idx = bid - 1 ∧ 0 < bid))) ∧
    (∀ (s : DenseSet) (idx bid : Nat) (o : Obj) (ttl : Bool),
      idx < s.entries.length → (s.bucket idx).isEmpty = true →
      ((flatPlace env s idx bid o ttl).bucket idx).chainObjs = [o] ∧
      (idx = bid → ((flatPlace env s idx bid o ttl).bucket idx).isDisplaced = false) ∧
      (idx ≠ bid → ((flatPlace env s idx bid o ttl).bucket idx).isDisplaced = true ∧
        ((flatPlace env s idx bid o ttl).bucket idx).getDisplacedDirection =
          (idx : Int) - (bid : Int))) ∧
    (∀ (s : DenseSet) (b : Nat), displacedHeadsOk env s = true →
      b < s.entries.length → (s.bucket b).isDisplaced = true →
      ((s.bucket b).getDisplacedDirection = 1 ∨
        (s.bucket b).getDisplacedDirection = -1) ∧
      (b : Int) = (bucketIdOf env s.capacityLog (s.bucket b).getObject 0 : Int) +
        (s.bucket b).getDisplacedDirection) ∧
    (∀ (fuel : Nat) (s : DenseSet) (ti : DensePtr) (b : Nat),
      displacedHeadsOk env s = true → b < s.entries.length →
      (s.bucket b).isDisplaced = true →
      cascade env (fuel + 1) s ti b =
        (fun r : DenseSet × DensePtr × Nat × Nat => (r.1, r.2.1, r.2.2.1, r.2.2.2 + 1))
          (cascade env fuel
            ((s.setBucket b DensePtr.empty).setBucket b (pushFrontPtr DensePtr.empty ti))
            (s.bucket b)
            (bucketIdOf env s.capacityLog (s.bucket b).getObject 0))) := by
  refine ⟨fun s bid idx h => findEmptyAround_some env s bid idx h,
    fun s idx bid o ttl h1 h2 => ?_,
    fun s b H hb hd => ?_,
    fun fuel s ti b H hb hd => cascade_step_home env fuel s ti b H hb hd⟩
  · obtain ⟨ha, hbb, hc, _⟩ := flatPlace_spec env s idx bid o ttl h1 h2
    exact ⟨ha, hbb, hc⟩
  · obtain ⟨_, hdirpm, hge, _, hhome⟩ := displacedHeadsOk_spec env s b H hb hd
    refine ⟨hdirpm, ?_⟩
    rw [hhome]
    rw [Int.toNat_of_nonneg hge]
    ring

theorem c1_amended_witness :
    (let W : DenseSet := ⟨[DensePtr.obj 0 false false 0, DensePtr.obj 8 false true 1,
        DensePtr.empty, DensePtr.empty, DensePtr.empty, DensePtr.empty,
        DensePtr.empty, DensePtr.empty], 3, 2, 2, 0, 2, 0⟩
     displacedHeadsOk stubEnv8 W = true ∧ 1 < W.entries.length ∧
     (W.bucket 1).isDisplaced = true ∧
     (((W.bucket 1).getDisplacedDirection = 1 ∨
       (W.bucket 1).getDisplacedDirection = -1) ∧
      (1 : Int) = (bucketIdOf stubEnv8 W.capacityLog (W.bucket 1).getObject 0 : Int) +
        (W.bucket 1).getDisplacedDirection)) :=
  ⟨by decide, by decide, by decide,
    (c1_amended stubEnv8).2.2.1 _ 1 (by decide) (by decide) (by decide)⟩

end DenseSetModel
